import Mathlib

/-!
# pycpx `containers.hpp`: shape/stride metadata, slices, views and the shape resolver

A shallow embedding of `src/pycpx/containers.hpp`.

Conventions of the embedding.

* C++ `long` and `int` values are Lean `Int`s.  Signed overflow is undefined
  behaviour in C++, so the embedding describes the runs in which no arithmetic
  overflows.  `/` on `long` truncates towards zero and is `Int.tdiv`.
* `assert_equal`, `assert_leq`, `assert_lt` and `DEBUG_MODE` come from `debug.h`,
  which is not part of the source tree.  They abort a debug build and never
  change a computed value, so the definitions below give the value computed
  when no assertion aborts.  Where a property depends on such a check, the
  checked condition is given as a predicate of its own
  (`MetaData.ofOffsetShapeStride_asserts`).
* The operator codes (`OP_B_MULTIPLY`, `OP_SIMPLE_MASK`, ...) come from
  `operators.hpp`, which is not part of the source tree either; they are the
  fields of `OpCodes`, and every theorem holds for every assignment of codes.
* The reference-counted backing buffer of an `ExpressionArray` is explicit
  state: a `Store` maps a buffer handle to the buffer's contents, and a view
  holds the handle (`data_ptr`).  Indexing outside a buffer has no defined
  result in C++ and is `none` here.  Allocating a buffer takes the handle of
  the new buffer as an argument (`allocBuffer`).
* `reduction_op`, `unary_op` and the functor templates `ROp` and `UOp` are
  declared in `operators.hpp`; they are modelled from the specification and
  marked as such.  The routines the binary dispatch hands over to
  (`matrix_multiply`, the elementwise `binary_op`) only appear as the tag
  `BinaryAlgorithm`.
* A `switch` is an `if` chain over its case labels in source order; the labels
  of one `switch` are distinct in C++ (`UnaryCodes.Distinct`,
  `OpCodes.Distinct`).
-/

namespace Pycpx

/-! ## Mode tags and slice kinds -/

def MATRIX_MODE : Int := 0
def ARRAY_MODE : Int := 1
def DIAG_MODE : Int := 2
def CONSTRAINT_MODE : Int := 3

def SLICE_SINGLE : Int := 0
def SLICE_FULL : Int := 1
def SLICE_GENERAL : Int := 2

def S2_IDX (S0 S1 : Int) : Int := 3 * S0 + S1

/-! ## MetaData -/

/-- The private members of class `MetaData`. -/
structure MetaData where
  _mode : Int
  _offset : Int
  _shape : Int × Int
  _stride : Int × Int
deriving DecidableEq, Repr

namespace MetaData

/-- `MetaData()`. -/
def empty : MetaData :=
  { _mode := 0, _offset := 0, _shape := (0, 0), _stride := (0, 0) }

/-- `MetaData(int mode, long shape_0, long shape_1)`. -/
def ofShape (mode shape_0 shape_1 : Int) : MetaData :=
  { _mode := mode
    _offset := 0
    _shape := (shape_0, shape_1)
    _stride := if shape_0 * shape_1 = 1 then (0, 0) else (shape_1, 1) }

/-- `MetaData(int mode, long shape_0, long shape_1, long stride_0, long stride_1)`. -/
def ofShapeStride (mode shape_0 shape_1 stride_0 stride_1 : Int) : MetaData :=
  { _mode := mode
    _offset := 0
    _shape := (shape_0, shape_1)
    _stride := if shape_0 = 1 ∧ shape_1 = 1 then (0, 0) else (stride_0, stride_1) }

/-- `MetaData(int mode, long offset, long shape_0, long shape_1, long stride_0,
long stride_1)`: the value it builds.  Its body only asserts, see
`ofOffsetShapeStride_asserts`. -/
def ofOffsetShapeStride (mode offset shape_0 shape_1 stride_0 stride_1 : Int) : MetaData :=
  { _mode := mode
    _offset := offset
    _shape := (shape_0, shape_1)
    _stride := (stride_0, stride_1) }

/-- The condition checked by the body of the six-argument constructor under
`DEBUG_MODE`: `shape_0 == 1 && shape_1 == 1` demands `stride_0 == 0` and
`stride_1 == 0`. -/
def ofOffsetShapeStride_asserts (shape_0 shape_1 stride_0 stride_1 : Int) : Prop :=
  shape_0 = 1 ∧ shape_1 = 1 → stride_0 = 0 ∧ stride_1 = 0

instance (a b c d : Int) : Decidable (ofOffsetShapeStride_asserts a b c d) := by
  unfold ofOffsetShapeStride_asserts; infer_instance

/-- `MetaData(const MetaData& md)`. -/
def copy (md : MetaData) : MetaData :=
  { _mode := md._mode, _offset := md._offset, _shape := md._shape, _stride := md._stride }

/-- `mode()`. -/
def mode (m : MetaData) : Int := m._mode

/-- `setMode(int new_mode)`, as the value of the object afterwards. -/
def setMode (m : MetaData) (new_mode : Int) : MetaData :=
  { m with _mode := new_mode }

/-- `shape(int i)`. -/
def shape (m : MetaData) (i : Int) : Int :=
  if i = 0 then m._shape.1 else if i = 1 then m._shape.2 else 0

/-- `offset()`. -/
def offset (m : MetaData) : Int := m._offset

/-- `stride(int i)`. -/
def stride (m : MetaData) (i : Int) : Int :=
  if i = 0 then m._stride.1 else if i = 1 then m._stride.2 else 0

/-- `size()`. -/
def size (m : MetaData) : Int := m._shape.1 * m._shape.2

/-- `transposed()`. -/
def transposed (m : MetaData) : MetaData :=
  ofShapeStride m._mode m._shape.2 m._shape.1 m._stride.2 m._stride.1

/-- `matrix_multiplication_applies(md_right)`. -/
def matrix_multiplication_applies (m md_right : MetaData) : Bool :=
  (m.mode == MATRIX_MODE || md_right.mode == MATRIX_MODE)
    && !(m.shape 0 == 1 && m.shape 1 == 1)
    && !(md_right.shape 0 == 1 && md_right.shape 1 == 1)

end MetaData

/-! ## Slice descriptors -/

/-- Class `Slice`: a general range with a step. -/
structure Slice where
  _start : Int
  _stop : Int
  _step : Int
deriving DecidableEq, Repr

namespace Slice

/-- `Slice::size()`; the division is C++ truncating division. -/
def size (s : Slice) : Int := (s._stop - s._start).tdiv s._step
def step (s : Slice) : Int := s._step
def start (s : Slice) : Int := s._start
def stop (s : Slice) : Int := s._stop

/-- The operand of the `assert_equal` in `Slice::size()` together with the
requirement that the division is defined: a non-zero step dividing the extent. -/
def size_asserts (s : Slice) : Prop :=
  s._step ≠ 0 ∧ (s._stop - s._start).tmod s._step = 0

instance (s : Slice) : Decidable s.size_asserts := by
  unfold size_asserts; infer_instance

end Slice

/-- Class `SliceFull`: a whole axis. -/
structure SliceFull where
  _size : Int
deriving DecidableEq, Repr

namespace SliceFull

def size (s : SliceFull) : Int := s._size
def step (_s : SliceFull) : Int := 1
def start (_s : SliceFull) : Int := 0
def stop (s : SliceFull) : Int := s._size

end SliceFull

/-- Class `SliceSingle`: one index. -/
structure SliceSingle where
  _index : Int
deriving DecidableEq, Repr

namespace SliceSingle

def size (_s : SliceSingle) : Int := 1
def step (_s : SliceSingle) : Int := 1
def start (s : SliceSingle) : Int := s._index
def stop (s : SliceSingle) : Int := s._index + 1

end SliceSingle

/-- The three classes a `Slice0` / `Slice1` template parameter is instantiated
with. -/
inductive SliceDesc where
  | general (s : Slice)
  | full (s : SliceFull)
  | single (s : SliceSingle)
deriving DecidableEq, Repr

namespace SliceDesc

def size : SliceDesc → Int
  | general s => s.size
  | full s => s.size
  | single s => s.size

def step : SliceDesc → Int
  | general s => s.step
  | full s => s.step
  | single s => s.step

def start : SliceDesc → Int
  | general s => s.start
  | full s => s.start
  | single s => s.start

def stop : SliceDesc → Int
  | general s => s.stop
  | full s => s.stop
  | single s => s.stop

/-- A descriptor whose `size()` is defined and passes its assertion: a general
slice has a non-zero step dividing its extent. -/
def Valid : SliceDesc → Prop
  | general s => s.size_asserts
  | full _ => True
  | single _ => True

instance (s : SliceDesc) : Decidable s.Valid := by
  cases s <;> unfold Valid <;> infer_instance

end SliceDesc

/-- `MetaData(const MetaData& md, const Slice0& s0, const Slice1& s1)`. -/
def MetaData.ofSlices (md : MetaData) (s0 s1 : SliceDesc) : MetaData :=
  { _mode := md._mode
    _offset := md._offset + s0.start * md.stride 0 + s1.start * md.stride 1
    _shape := (s0.size, s1.size)
    _stride := if s0.size * s1.size = 1 then (0, 0)
               else (md._stride.1 * s0.step, md._stride.2 * s1.step) }

/-- `ComponentBase::getIndex(i, j)` of a view whose metadata is `md`. -/
def getIndex (md : MetaData) (i j : Int) : Int :=
  md.offset + md.stride 0 * i + md.stride 1 * j

/-! ## Views over a shared backing buffer -/

/-- The shared buffers: a handle (`SharedPointer<IloExprArray>`) names the
fixed-size array it points to. -/
abbrev Store (V : Type) := Nat → List V

/-- Class `ExpressionArray`: the metadata held by `ComponentBase`, the handle of
the backing buffer and the optional handle of the auxiliary variable buffer. -/
structure ExpressionArray where
  _md : MetaData
  data_ptr : Nat
  aux_var_ptr : Option Nat
deriving DecidableEq, Repr

namespace ExpressionArray

/-- `md()`. -/
def md (ea : ExpressionArray) : MetaData := ea._md

/-- `ExpressionArray(const ExpressionArray& ea, const MetaData& md)`. -/
def ofView (ea : ExpressionArray) (md : MetaData) : ExpressionArray :=
  { _md := md, data_ptr := ea.data_ptr, aux_var_ptr := none }

/-- `ExpressionArray(const ExpressionArray& ea, const Slice0& s0, const Slice1& s1)`. -/
def ofSlices (ea : ExpressionArray) (s0 s1 : SliceDesc) : ExpressionArray :=
  { _md := MetaData.ofSlices ea.md s0 s1, data_ptr := ea.data_ptr, aux_var_ptr := none }

/-- `ComponentBase::newFromSlice(s0, s1)`. -/
def newFromSlice (ea : ExpressionArray) (s0 s1 : SliceDesc) : ExpressionArray :=
  ofSlices ea s0 s1

/-- `ComponentBase::newTransposed()`. -/
def newTransposed (ea : ExpressionArray) : ExpressionArray :=
  ofView ea ea._md.transposed

/-- `ComponentBase::getIndex(i, j)` on this view. -/
def getIndex (ea : ExpressionArray) (i j : Int) : Int :=
  Pycpx.getIndex ea._md i j

/-- `get(i, j)`: reads `(*data_ptr)[getIndex(i, j)]` through `operator()`. -/
def get {V : Type} (ea : ExpressionArray) (h : Store V) (i j : Int) : Option V :=
  let idx := ea.getIndex i j
  if 0 ≤ idx ∧ idx < ((h ea.data_ptr).length : Int) then (h ea.data_ptr)[idx.toNat]? else none

/-- `set(i, j, v)`: stores `v` into `(*data_ptr)[getIndex(i, j)]` through
`operator()`; the result is the store afterwards. -/
def set {V : Type} (ea : ExpressionArray) (h : Store V) (i j : Int) (v : V) :
    Option (Store V) :=
  let idx := ea.getIndex i j
  if 0 ≤ idx ∧ idx < ((h ea.data_ptr).length : Int) then
    some (fun p => if p = ea.data_ptr then (h p).set idx.toNat v else h p)
  else none

end ExpressionArray

/-! ## The shape resolver -/

/-- The operator codes of `operators.hpp` that `containers.hpp` refers to in its
binary value dispatch and in the resolver. -/
structure OpCodes where
  OP_SIMPLE_FLAG : Int
  OP_SIMPLE_MASK : Int
  OP_B_ADD : Int
  OP_B_MULTIPLY : Int
  OP_B_MATRIXMULTIPLY : Int
  OP_B_ARRAYMULTIPLY : Int
  OP_B_SUBTRACT : Int
  OP_B_DIVIDE : Int
deriving DecidableEq, Repr

/-- `newMode(op_type, m1, m2)`. -/
def newMode (_op_type m1 m2 : Int) : Int :=
  if m1 = MATRIX_MODE ∨ m2 = MATRIX_MODE then MATRIX_MODE else ARRAY_MODE

/-- `newMetadata(op_type, md1, md2, okay)`: the returned `MetaData` paired with
the value stored into `*okay`. -/
def newMetadata (c : OpCodes) (op_type : Int) (md1 md2 : MetaData) : MetaData × Bool :=
  let mode := newMode op_type md1.mode md2.mode
  let op_type := Int.land op_type c.OP_SIMPLE_MASK
  if (op_type = c.OP_B_MULTIPLY ∧ md1.matrix_multiplication_applies md2 = true)
      ∨ op_type = c.OP_B_MATRIXMULTIPLY then
    if md1.shape 1 = md2.shape 0 then
      (MetaData.ofShape mode (md1.shape 0) (md2.shape 1), true)
    else
      (MetaData.empty, false)
  else if md1.shape 0 = md2.shape 0 ∧ md1.shape 1 = md2.shape 1 then
    if md1.stride 0 = md2.stride 0 ∧ md1.stride 1 = md2.stride 1 then
      (MetaData.ofShapeStride mode (md1.shape 0) (md1.shape 1) (md1.stride 0) (md1.stride 1),
        true)
    else
      (MetaData.ofShape mode (md1.shape 0) (md1.shape 1), true)
  else if md1.shape 0 = 1 ∧ md1.shape 1 = 1 then
    (MetaData.ofShape mode (md2.shape 0) (md2.shape 1), true)
  else if md2.shape 0 = 1 ∧ md2.shape 1 = 1 then
    (MetaData.ofShape mode (md1.shape 0) (md1.shape 1), true)
  else
    (MetaData.empty, false)

/-- The condition of the first `if` of `newMetadata`: after the simple flag is
masked off, the code is multiply and `matrix_multiplication_applies`, or the
code is the explicit matrix product. -/
def matrixProductRule (c : OpCodes) (op_type : Int) (md1 md2 : MetaData) : Prop :=
  (Int.land op_type c.OP_SIMPLE_MASK = c.OP_B_MULTIPLY
      ∧ md1.matrix_multiplication_applies md2 = true)
    ∨ Int.land op_type c.OP_SIMPLE_MASK = c.OP_B_MATRIXMULTIPLY

instance (c : OpCodes) (op_type : Int) (md1 md2 : MetaData) :
    Decidable (matrixProductRule c op_type md1 md2) := by
  unfold matrixProductRule; infer_instance

/-- An assignment of operator codes used to evaluate the resolver on concrete
inputs: distinct small codes under a mask of `0xff` with the simple flag above
it. -/
def sampleCodes : OpCodes :=
  { OP_SIMPLE_FLAG := 256
    OP_SIMPLE_MASK := 255
    OP_B_ADD := 1
    OP_B_MULTIPLY := 2
    OP_B_MATRIXMULTIPLY := 3
    OP_B_ARRAYMULTIPLY := 4
    OP_B_SUBTRACT := 5
    OP_B_DIVIDE := 6 }

/-! ## Freshly allocated views -/

/-- `ExpressionArray(IloEnv env, const MetaData& md)`: the view object; its
`data_ptr` is the handle `fresh` of the buffer allocated for it by
`allocBuffer`. -/
def ExpressionArray.ofEnv (fresh : Nat) (md : MetaData) : ExpressionArray :=
  { _md := md, data_ptr := fresh, aux_var_ptr := none }

/-- `new IloExprArray(env, n)`: the store after a buffer of `n` elements, each
the empty value `init`, is allocated under the handle `fresh`. -/
def allocBuffer {V : Type} (h : Store V) (fresh : Nat) (n : Int) (init : V) : Store V :=
  fun p => if p = fresh then List.replicate n.toNat init else h p

/-- `ComponentBase::shape(i)` on this view. -/
def ExpressionArray.shape (ea : ExpressionArray) (i : Int) : Int := ea._md.shape i

/-- A loop `for(long i = 0; i < n; ++i) body(i)` over a state that a body may
fail to produce. -/
def forLoop {σ : Type} (n : Int) (body : Int → σ → Option σ) (s : σ) : Option σ :=
  (List.range n.toNat).foldl (fun acc (i : Nat) => acc.bind (body (i : Int))) (some s)

/-! ## Slicing with general slices -/

/-- `ComponentBase::newFromGeneralSlice(s0, s1)`. -/
def ExpressionArray.newFromGeneralSlice (ea : ExpressionArray) (s0 s1 : Slice) :
    ExpressionArray :=
  let type0 : Int :=
    if s0.stop - s0.start = s0.step then SLICE_SINGLE
    else if s0.step = 1 ∧ s0.stop - s0.start = ea._md.shape 0 then SLICE_FULL
    else SLICE_GENERAL
  let type1 : Int :=
    if s1.stop - s1.start = s1.step then SLICE_SINGLE
    else if s1.step = 1 ∧ s1.stop - s1.start = ea._md.shape 1 then SLICE_FULL
    else SLICE_GENERAL
  let k := S2_IDX type0 type1
  if k = S2_IDX SLICE_SINGLE SLICE_SINGLE then
    ea.newFromSlice (SliceDesc.single ⟨s0.start⟩) (SliceDesc.single ⟨s1.start⟩)
  else if k = S2_IDX SLICE_SINGLE SLICE_FULL then
    ea.newFromSlice (SliceDesc.single ⟨s0.start⟩) (SliceDesc.full ⟨ea.shape 1⟩)
  else if k = S2_IDX SLICE_SINGLE SLICE_GENERAL then
    ea.newFromSlice (SliceDesc.single ⟨s0.start⟩) (SliceDesc.general s1)
  else if k = S2_IDX SLICE_FULL SLICE_SINGLE then
    ea.newFromSlice (SliceDesc.full ⟨ea.shape 0⟩) (SliceDesc.single ⟨s1.start⟩)
  else if k = S2_IDX SLICE_FULL SLICE_FULL then
    ea.newFromSlice (SliceDesc.full ⟨ea.shape 0⟩) (SliceDesc.full ⟨ea.shape 1⟩)
  else if k = S2_IDX SLICE_FULL SLICE_GENERAL then
    ea.newFromSlice (SliceDesc.full ⟨ea.shape 0⟩) (SliceDesc.general s1)
  else if k = S2_IDX SLICE_GENERAL SLICE_SINGLE then
    ea.newFromSlice (SliceDesc.general s0) (SliceDesc.single ⟨s1.start⟩)
  else if k = S2_IDX SLICE_GENERAL SLICE_FULL then
    ea.newFromSlice (SliceDesc.general s0) (SliceDesc.full ⟨ea.shape 1⟩)
  else
    ea.newFromSlice (SliceDesc.general s0) (SliceDesc.general s1)

/-- The indices a general slice selects, `start + k*step` for `0 <= k < size`,
all lie on an axis of length `n`. -/
def Slice.InsideAxis (s : Slice) (n : Int) : Prop :=
  ∀ k : Nat, k < s.size.toNat →
    0 ≤ s.start + (k : Int) * s.step ∧ s.start + (k : Int) * s.step < n

instance (s : Slice) (n : Int) : Decidable (s.InsideAxis n) := by
  unfold Slice.InsideAxis; infer_instance

/-- The descriptor that `newFromGeneralSlice` passes on for a general slice on
an axis of length `n`: `SliceSingle(start)`, `SliceFull(n)` or the slice
itself. -/
def Slice.reclassify (s : Slice) (n : Int) : SliceDesc :=
  if s.stop - s.start = s.step then SliceDesc.single ⟨s.start⟩
  else if s.step = 1 ∧ s.stop - s.start = n then SliceDesc.full ⟨n⟩
  else SliceDesc.general s

/-! ## Reduction -/

/-- Modelled from the spec: the class template `ROp<OP, Value>` of
`operators.hpp` is not in the source tree.  The element-operator contract gives
a reduction operator as a binary callable with an identity/seed value. -/
structure ROp (V : Type) where
  seed : V
  apply : V → V → V

/-- Modelled from the spec: `ROp<OP_R_SUM, Value>` on numbers, the sum with
seed 0. -/
def ROp.sum : ROp Int := { seed := 0, apply := fun a b => a + b }

/-- Modelled from the spec: the function `reduction_op(cell, src, s0, s1, op,
is_simple)` is defined outside `containers.hpp`.  It yields the fold of the
reduction operator, in ascending index order (first axis outermost), over the
elements of `src` selected by the two slice descriptors; the value is what it
stores into the destination cell.  The simple flag is a performance hint and
does not change the value. -/
def reduction_op {V : Type} (op : ROp V) (_is_simple : Bool) (h : Store V)
    (src : ExpressionArray) (s0 s1 : SliceDesc) : Option V :=
  (List.range s0.size.toNat).foldl
    (fun acc (i : Nat) =>
      (List.range s1.size.toNat).foldl
        (fun acc (j : Nat) =>
          acc.bind (fun a =>
            (src.get h (s0.start + (i : Int) * s0.step) (s1.start + (j : Int) * s1.step)).map
              (op.apply a)))
        acc)
    (some op.seed)

/-- `ComponentBase::newFromReduction(axis, op, is_simple)`: the destination
view, allocated under the handle `fresh`, and the store after the reduction
loops, where each `reduction_op` result is stored into its destination cell. -/
def ExpressionArray.newFromReduction {V : Type} (op : ROp V) (is_simple : Bool)
    (h : Store V) (fresh : Nat) (init : V) (ea : ExpressionArray) (axis : Int) :
    ExpressionArray × Option (Store V) :=
  let dest : ExpressionArray :=
    ExpressionArray.ofEnv fresh
      (MetaData.ofShape ea.md.mode (if axis = 1 then ea.shape 0 else 1)
        (if axis = 0 then ea.shape 1 else 1))
  let h0 := allocBuffer h fresh (dest.shape 0 * dest.shape 1) init
  (dest,
    if axis = 0 then
      forLoop (ea.shape 1)
        (fun i hs =>
          (reduction_op op is_simple hs ea (SliceDesc.full ⟨ea.shape 0⟩)
            (SliceDesc.single ⟨i⟩)).bind (fun x => dest.set hs 0 i x))
        h0
    else if axis = 1 then
      forLoop (ea.shape 0)
        (fun i hs =>
          (reduction_op op is_simple hs ea (SliceDesc.single ⟨i⟩)
            (SliceDesc.full ⟨ea.shape 1⟩)).bind (fun x => dest.set hs i 0 x))
        h0
    else
      (reduction_op op is_simple h0 ea (SliceDesc.full ⟨ea.shape 0⟩)
        (SliceDesc.full ⟨ea.shape 1⟩)).bind (fun x => dest.set h0 0 0 x))

/-! ## Unary dispatch -/

/-- The unary operator codes of `operators.hpp` that `newFromUnaryOp` switches
on. -/
structure UnaryCodes where
  OP_U_NO_TRANSLATE : Int
  OP_U_ABS : Int
  OP_U_NEGATIVE : Int
deriving DecidableEq, Repr

/-- The case labels of the `switch` in `newFromUnaryOp` are pairwise distinct,
as C++ requires of the labels of one `switch`. -/
def UnaryCodes.Distinct (u : UnaryCodes) : Prop :=
  u.OP_U_NO_TRANSLATE ≠ u.OP_U_ABS ∧ u.OP_U_NO_TRANSLATE ≠ u.OP_U_NEGATIVE
    ∧ u.OP_U_ABS ≠ u.OP_U_NEGATIVE

instance (u : UnaryCodes) : Decidable u.Distinct := by
  unfold UnaryCodes.Distinct; infer_instance

/-- Modelled from the spec: the function `unary_op(dest, src, functor)` is
defined outside `containers.hpp`.  It follows the elementwise pattern: for
every logical `(i, j)` of the destination's shape it reads the source at
`(i, j)` and writes the functor's value into the destination at `(i, j)`. -/
def unary_op {V : Type} (dest src : ExpressionArray) (f : V → V) (h : Store V) :
    Option (Store V) :=
  forLoop (dest.shape 0)
    (fun i hs =>
      forLoop (dest.shape 1)
        (fun j hs1 => (src.get hs1 i j).bind (fun x => dest.set hs1 i j (f x)))
        hs)
    h

/-- What a call of `newFromUnaryOp` does: the destination it allocates, the
code of the `UOp` functor it hands to `unary_op` (if any), the store afterwards
(`none` when an element access has no defined result), and whether control
reaches `assert(false)`. -/
structure UnaryOutcome (V : Type) where
  dest : ExpressionArray
  applied : Option Int
  store : Option (Store V)
  reaches_assert_false : Bool

/-- `ComponentBase::newFromUnaryOp(op_type)`.  `UOp code` stands for the functor
`UOp<code, Value, Value>` of `operators.hpp`.  The case `OP_U_NEGATIVE` has no
`return` and falls through into `default`. -/
def ExpressionArray.newFromUnaryOp {V : Type} (u : UnaryCodes) (UOp : Int → V → V)
    (h : Store V) (fresh : Nat) (init : V) (ea : ExpressionArray) (op_type : Int) :
    UnaryOutcome V :=
  let dest : ExpressionArray := ExpressionArray.ofEnv fresh ea._md
  let h0 := allocBuffer h fresh (dest.shape 0 * dest.shape 1) init
  if op_type = u.OP_U_NO_TRANSLATE then
    { dest := dest
      applied := some u.OP_U_NO_TRANSLATE
      store := unary_op dest ea (UOp u.OP_U_NO_TRANSLATE) h0
      reaches_assert_false := false }
  else if op_type = u.OP_U_ABS then
    { dest := dest
      applied := some u.OP_U_ABS
      store := unary_op dest ea (UOp u.OP_U_ABS) h0
      reaches_assert_false := false }
  else if op_type = u.OP_U_NEGATIVE then
    { dest := dest
      applied := some u.OP_U_NEGATIVE
      store := unary_op dest ea (UOp u.OP_U_NEGATIVE) h0
      reaches_assert_false := true }
  else
    { dest := dest
      applied := none
      store := some h0
      reaches_assert_false := true }

/-! ## Binary value dispatch -/

/-- The routine a call of the value-producing `binary_op(op_type, dest, src1,
src2)` hands its operands to: `matrix_multiply`, or the elementwise `binary_op`
with the functor `Op<code, ...>`. -/
inductive BinaryAlgorithm where
  | matrix_multiply
  | elementwise (code : Int)
deriving DecidableEq, Repr

/-- `binary_op(op_type, ExpressionArray& dest, src1, src2)`: the routine it
dispatches to, from the metadata of the two sources; `none` is the `default`
case, `assert(false)`. -/
def binary_op (c : OpCodes) (op_type : Int) (src1 src2 : MetaData) : Option BinaryAlgorithm :=
  let k := Int.land op_type c.OP_SIMPLE_MASK
  if k = c.OP_B_ADD then
    some (BinaryAlgorithm.elementwise c.OP_B_ADD)
  else if k = c.OP_B_MULTIPLY then
    if src1.matrix_multiplication_applies src2 = true then
      some BinaryAlgorithm.matrix_multiply
    else
      some (BinaryAlgorithm.elementwise c.OP_B_MULTIPLY)
  else if k = c.OP_B_MATRIXMULTIPLY then
    some BinaryAlgorithm.matrix_multiply
  else if k = c.OP_B_ARRAYMULTIPLY then
    some (BinaryAlgorithm.elementwise c.OP_B_MULTIPLY)
  else if k = c.OP_B_SUBTRACT then
    some (BinaryAlgorithm.elementwise c.OP_B_SUBTRACT)
  else if k = c.OP_B_DIVIDE then
    some (BinaryAlgorithm.elementwise c.OP_B_DIVIDE)
  else
    none

/-- The case labels of the `switch` in the value-producing `binary_op` are
pairwise distinct, as C++ requires of the labels of one `switch`. -/
def OpCodes.Distinct (c : OpCodes) : Prop :=
  [c.OP_B_ADD, c.OP_B_MULTIPLY, c.OP_B_MATRIXMULTIPLY, c.OP_B_ARRAYMULTIPLY,
    c.OP_B_SUBTRACT, c.OP_B_DIVIDE].Nodup

instance (c : OpCodes) : Decidable c.Distinct := by
  unfold OpCodes.Distinct; infer_instance

/-- The masked code is one of the six codes the value-producing dispatch
accepts. -/
def OpCodes.Accepts (c : OpCodes) (op_type : Int) : Prop :=
  Int.land op_type c.OP_SIMPLE_MASK ∈
    [c.OP_B_ADD, c.OP_B_MULTIPLY, c.OP_B_MATRIXMULTIPLY, c.OP_B_ARRAYMULTIPLY,
      c.OP_B_SUBTRACT, c.OP_B_DIVIDE]

instance (c : OpCodes) (op_type : Int) : Decidable (c.Accepts op_type) := by
  unfold OpCodes.Accepts; infer_instance

/-! ## The resolver with its branch recorded -/

/-- The branches of the outer `if` chain of `newMetadata`, in source order. -/
inductive ResolverBranch where
  | matrix_product
  | same_shape
  | scalar_first
  | scalar_second
  | incompatible
deriving DecidableEq, Repr

/-- `newMetadata(op_type, md1, md2, okay)` with the branch of its outer `if`
chain that returns recorded next to what it returns. -/
def newMetadataTraced (c : OpCodes) (op_type : Int) (md1 md2 : MetaData) :
    ResolverBranch × (MetaData × Bool) :=
  let mode := newMode op_type md1.mode md2.mode
  let op_type := Int.land op_type c.OP_SIMPLE_MASK
  if (op_type = c.OP_B_MULTIPLY ∧ md1.matrix_multiplication_applies md2 = true)
      ∨ op_type = c.OP_B_MATRIXMULTIPLY then
    (ResolverBranch.matrix_product,
      if md1.shape 1 = md2.shape 0 then
        (MetaData.ofShape mode (md1.shape 0) (md2.shape 1), true)
      else
        (MetaData.empty, false))
  else if md1.shape 0 = md2.shape 0 ∧ md1.shape 1 = md2.shape 1 then
    (ResolverBranch.same_shape,
      if md1.stride 0 = md2.stride 0 ∧ md1.stride 1 = md2.stride 1 then
        (MetaData.ofShapeStride mode (md1.shape 0) (md1.shape 1) (md1.stride 0) (md1.stride 1),
          true)
      else
        (MetaData.ofShape mode (md1.shape 0) (md1.shape 1), true))
  else if md1.shape 0 = 1 ∧ md1.shape 1 = 1 then
    (ResolverBranch.scalar_first, (MetaData.ofShape mode (md2.shape 0) (md2.shape 1), true))
  else if md2.shape 0 = 1 ∧ md2.shape 1 = 1 then
    (ResolverBranch.scalar_second, (MetaData.ofShape mode (md1.shape 0) (md1.shape 1), true))
  else
    (ResolverBranch.incompatible, (MetaData.empty, false))

/-! ## Specification-side predicates -/

/-- The scalar-stride invariant: a `(1,1)` shape carries stride `(0,0)`. -/
def ScalarStride (m : MetaData) : Prop :=
  m._shape = (1, 1) → m._stride = (0, 0)

instance (m : MetaData) : Decidable (ScalarStride m) := by
  unfold ScalarStride; infer_instance

/-- The `MetaData` values obtainable from the public constructors,
`transposed()`, `setMode()` and the resolver `newMetadata`, where the
offset+shape+stride constructor is only used with arguments that pass its
assertion. -/
inductive Produced (c : OpCodes) : MetaData → Prop where
  | empty : Produced c MetaData.empty
  | ofShape (mode shape_0 shape_1 : Int) :
      Produced c (MetaData.ofShape mode shape_0 shape_1)
  | ofShapeStride (mode shape_0 shape_1 stride_0 stride_1 : Int) :
      Produced c (MetaData.ofShapeStride mode shape_0 shape_1 stride_0 stride_1)
  | ofOffsetShapeStride (mode offset shape_0 shape_1 stride_0 stride_1 : Int) :
      MetaData.ofOffsetShapeStride_asserts shape_0 shape_1 stride_0 stride_1 →
      Produced c (MetaData.ofOffsetShapeStride mode offset shape_0 shape_1 stride_0 stride_1)
  | ofSlices (md : MetaData) (s0 s1 : SliceDesc) :
      Produced c md → Produced c (MetaData.ofSlices md s0 s1)
  | copy (md : MetaData) : Produced c md → Produced c md.copy
  | transposed (md : MetaData) : Produced c md → Produced c md.transposed
  | setMode (md : MetaData) (new_mode : Int) : Produced c md → Produced c (md.setMode new_mode)
  | newMetadata (op_type : Int) (md1 md2 : MetaData) :
      Produced c md1 → Produced c md2 → Produced c (newMetadata c op_type md1 md2).1

/-! ## Concrete views used to evaluate the code -/

/-- A fresh 3 x 3 matrix view: `MetaData(MATRIX_MODE, 3, 3)`. -/
def m33 : MetaData := MetaData.ofShape MATRIX_MODE 3 3

/-- Row 1 of `m33`: `MetaData(m33, SliceSingle(1), SliceFull(3))`. -/
def row1 : MetaData :=
  MetaData.ofSlices m33 (SliceDesc.single ⟨1⟩) (SliceDesc.full ⟨3⟩)

/-- A view over buffer 0 carrying `m33`. -/
def view33 : ExpressionArray := { _md := m33, data_ptr := 0, aux_var_ptr := none }

/-- A store whose every buffer holds the nine numbers 10, ..., 18. -/
def store9 : Store Int := fun _ => [10, 11, 12, 13, 14, 15, 16, 17, 18]

/-- An assignment of the unary operator codes used to evaluate the dispatch on
concrete inputs. -/
def sampleUnaryCodes : UnaryCodes :=
  { OP_U_NO_TRANSLATE := 0, OP_U_ABS := 1, OP_U_NEGATIVE := 2 }

/-- The functors `UOp<code, long, long>` on numbers under `sampleUnaryCodes`:
identity, absolute value, negation. -/
def sampleUOp (code : Int) (x : Int) : Int :=
  if code = 1 then |x| else if code = 2 then -x else x

/-- A store whose every buffer holds nine ones. -/
def ones9 : Store Int := fun _ => [1, 1, 1, 1, 1, 1, 1, 1, 1]

/-- Rows 0 and 2 of a 4 x 4 array:
`MetaData(MetaData(ARRAY_MODE, 4, 4), Slice(0, 4, 2), SliceFull(4))`. -/
def evenRows : MetaData :=
  MetaData.ofSlices (MetaData.ofShape ARRAY_MODE 4 4) (SliceDesc.general ⟨0, 4, 2⟩)
    (SliceDesc.full ⟨4⟩)

/-- A 2 x 2 view whose strides are both zero:
`MetaData(ARRAY_MODE, 2, 2, 0, 0)`. -/
def zeroStride22 : MetaData := MetaData.ofShapeStride ARRAY_MODE 2 2 0 0

/-! ## Theorems -/

/-- Sizes whose product is 1 are both 1 or both -1. -/
theorem mul_eq_one_cases (a b : Int) : a * b = 1 ↔ (a = 1 ∧ b = 1) ∨ (a = -1 ∧ b = -1) := by
  constructor
  · intro h
    rcases Int.eq_one_or_neg_one_of_mul_eq_one h with ha | ha
    · left; subst ha; simpa using h
    · right; subst ha; refine ⟨rfl, ?_⟩; omega
  · rintro (⟨rfl, rfl⟩ | ⟨rfl, rfl⟩) <;> rfl

theorem MetaData.shape_zero (m : MetaData) : m.shape 0 = m._shape.1 := rfl

theorem MetaData.shape_one (m : MetaData) : m.shape 1 = m._shape.2 := rfl

theorem MetaData.stride_zero (m : MetaData) : m.stride 0 = m._stride.1 := rfl

theorem MetaData.stride_one (m : MetaData) : m.stride 1 = m._stride.2 := rfl

/-- Non-negative sizes have product 1 only when both are 1. -/
theorem mul_eq_one_of_nonneg (a b : Int) (ha : 0 ≤ a) (_hb : 0 ≤ b) :
    a * b = 1 ↔ a = 1 ∧ b = 1 := by
  rw [mul_eq_one_cases]
  constructor
  · rintro (h | ⟨h, _⟩)
    · exact h
    · omega
  · exact fun h => Or.inl h

/-- For a non-negative shape the shape-only constructor zeroes the stride
exactly at shape `(1,1)`. -/
theorem ofShape_stride_of_nonneg (mode a b : Int) (ha : 0 ≤ a) (hb : 0 ≤ b) :
    (MetaData.ofShape mode a b)._stride = if a = 1 ∧ b = 1 then (0, 0) else (b, 1) := by
  simp only [MetaData.ofShape, mul_eq_one_of_nonneg a b ha hb]

/-- For slices of non-negative size the slice-derived constructor zeroes the
stride exactly at the new shape `(1,1)`. -/
theorem ofSlices_stride_of_nonneg (m : MetaData) (s0 s1 : SliceDesc)
    (h0 : 0 ≤ s0.size) (h1 : 0 ≤ s1.size) :
    (MetaData.ofSlices m s0 s1)._stride
      = if s0.size = 1 ∧ s1.size = 1 then (0, 0)
        else (m.stride 0 * s0.step, m.stride 1 * s1.step) := by
  simp only [MetaData.ofSlices, mul_eq_one_of_nonneg _ _ h0 h1, MetaData.stride_zero,
    MetaData.stride_one]

/-- The shape-only constructor keeps the scalar-stride invariant. -/
theorem scalarStride_ofShape (mode a b : Int) : ScalarStride (MetaData.ofShape mode a b) := by
  intro h
  simp only [MetaData.ofShape, Prod.mk.injEq] at h
  obtain ⟨rfl, rfl⟩ := h
  simp [MetaData.ofShape]

/-- The shape+stride constructor keeps the scalar-stride invariant. -/
theorem scalarStride_ofShapeStride (mode a b p q : Int) :
    ScalarStride (MetaData.ofShapeStride mode a b p q) := by
  intro h
  simp only [MetaData.ofShapeStride, Prod.mk.injEq] at h
  simp [MetaData.ofShapeStride, h]

/-- The default-constructed value has shape `(0,0)`. -/
theorem scalarStride_empty : ScalarStride MetaData.empty := by
  intro h
  simp [MetaData.empty] at h

/-- Every value returned by the resolver keeps the scalar-stride invariant. -/
theorem scalarStride_newMetadata (c : OpCodes) (op_type : Int) (md1 md2 : MetaData) :
    ScalarStride (newMetadata c op_type md1 md2).1 := by
  unfold newMetadata
  simp only []
  split_ifs <;>
    first
    | exact scalarStride_empty
    | exact scalarStride_ofShape _ _ _
    | exact scalarStride_ofShapeStride _ _ _ _ _

/-- The resolver on its matrix-product branch. -/
theorem newMetadata_of_rule (c : OpCodes) (op_type : Int) (md1 md2 : MetaData)
    (h : matrixProductRule c op_type md1 md2) :
    newMetadata c op_type md1 md2
      = if md1.shape 1 = md2.shape 0 then
          (MetaData.ofShape (newMode op_type md1.mode md2.mode) (md1.shape 0) (md2.shape 1), true)
        else (MetaData.empty, false) := by
  unfold matrixProductRule at h
  unfold newMetadata
  simp only [if_pos h]

/-- The resolver off its matrix-product branch. -/
theorem newMetadata_of_not_rule (c : OpCodes) (op_type : Int) (md1 md2 : MetaData)
    (h : ¬ matrixProductRule c op_type md1 md2) :
    newMetadata c op_type md1 md2
      = if md1.shape 0 = md2.shape 0 ∧ md1.shape 1 = md2.shape 1 then
          if md1.stride 0 = md2.stride 0 ∧ md1.stride 1 = md2.stride 1 then
            (MetaData.ofShapeStride (newMode op_type md1.mode md2.mode) (md1.shape 0)
              (md1.shape 1) (md1.stride 0) (md1.stride 1), true)
          else
            (MetaData.ofShape (newMode op_type md1.mode md2.mode) (md1.shape 0) (md1.shape 1),
              true)
        else if md1.shape 0 = 1 ∧ md1.shape 1 = 1 then
          (MetaData.ofShape (newMode op_type md1.mode md2.mode) (md2.shape 0) (md2.shape 1), true)
        else if md2.shape 0 = 1 ∧ md2.shape 1 = 1 then
          (MetaData.ofShape (newMode op_type md1.mode md2.mode) (md1.shape 0) (md1.shape 1), true)
        else (MetaData.empty, false) := by
  unfold matrixProductRule at h
  unfold newMetadata
  simp only [if_neg h]

/-- The resulting mode does not depend on the order of the operands. -/
theorem newMode_comm (op_type m1 m2 : Int) : newMode op_type m1 m2 = newMode op_type m2 m1 := by
  unfold newMode
  simp only [or_comm]

/-- Index resolution through a slice-derived view, for in-range `(i, j)`. -/
theorem getIndex_ofSlices (m : MetaData) (s0 s1 : SliceDesc) (i j : Int)
    (hi0 : 0 ≤ i) (hi : i < s0.size) (hj0 : 0 ≤ j) (hj : j < s1.size) :
    getIndex (MetaData.ofSlices m s0 s1) i j
      = getIndex m (s0.start + i * s0.step) (s1.start + j * s1.step) := by
  by_cases hp : s0.size * s1.size = 1
  · have hs0 : s0.size = 1 := by
      rcases (mul_eq_one_cases _ _).1 hp with ⟨a, _⟩ | ⟨a, _⟩ <;> omega
    have hs1 : s1.size = 1 := by
      rcases (mul_eq_one_cases _ _).1 hp with ⟨_, b⟩ | ⟨_, b⟩ <;> omega
    have hi' : i = 0 := by omega
    have hj' : j = 0 := by omega
    subst hi' hj'
    simp [getIndex, MetaData.ofSlices, MetaData.offset, MetaData.stride, hp]
    ring
  · simp [getIndex, MetaData.ofSlices, MetaData.offset, MetaData.stride, hp]
    ring

/-- C1. The metadata derived from a parent and two slice descriptors (single,
full, or general with a non-zero step dividing its extent) has shape
`(s0.size(), s1.size())`, and for every in-range `(i, j)` its `getIndex` is the
parent's `getIndex` at `(s0.start() + i*s0.step(), s1.start() + j*s1.step())`. -/
theorem ofSlices_shape_getIndex (m : MetaData) (s0 s1 : SliceDesc)
    (_h0 : s0.Valid) (_h1 : s1.Valid) :
    (MetaData.ofSlices m s0 s1)._shape = (s0.size, s1.size) ∧
    ∀ i j : Int, 0 ≤ i → i < s0.size → 0 ≤ j → j < s1.size →
      getIndex (MetaData.ofSlices m s0 s1) i j
        = getIndex m (s0.start + i * s0.step) (s1.start + j * s1.step) :=
  ⟨rfl, fun i j hi0 hi hj0 hj => getIndex_ofSlices m s0 s1 i j hi0 hi hj0 hj⟩

/-- Witness for C1: rows 0 and 2 and columns 1 and 2 of a 3 x 3 matrix; cell
`(1, 1)` of the derived view is cell `(2, 2)` of the parent, linear index 8. -/
theorem ofSlices_shape_getIndex_witness :
    (SliceDesc.general ⟨0, 4, 2⟩).Valid ∧ (SliceDesc.general ⟨1, 3, 1⟩).Valid ∧
    (MetaData.ofSlices m33 (SliceDesc.general ⟨0, 4, 2⟩) (SliceDesc.general ⟨1, 3, 1⟩))._shape
      = (2, 2) ∧
    getIndex (MetaData.ofSlices m33 (SliceDesc.general ⟨0, 4, 2⟩) (SliceDesc.general ⟨1, 3, 1⟩))
        1 1 = getIndex m33 2 2 ∧
    getIndex m33 2 2 = 8 :=
  ⟨by decide, by decide,
   (ofSlices_shape_getIndex m33 (SliceDesc.general ⟨0, 4, 2⟩) (SliceDesc.general ⟨1, 3, 1⟩)
      (by decide) (by decide)).1,
   (ofSlices_shape_getIndex m33 (SliceDesc.general ⟨0, 4, 2⟩) (SliceDesc.general ⟨1, 3, 1⟩)
      (by decide) (by decide)).2 1 1 (by decide) (by decide) (by decide) (by decide),
   by decide⟩

/-- C2. A value written through a slice-derived view at an in-range `(i, j)`
whose linear index lies inside the shared buffer is the value read through the
parent view at `(s0.start() + i*s0.step(), s1.start() + j*s1.step())`. -/
theorem newFromSlice_set_get {V : Type} (h : Store V) (v : ExpressionArray)
    (s0 s1 : SliceDesc) (i j : Int) (x : V)
    (hi0 : 0 ≤ i) (hi : i < s0.size) (hj0 : 0 ≤ j) (hj : j < s1.size)
    (hlo : 0 ≤ (v.newFromSlice s0 s1).getIndex i j)
    (hhi : (v.newFromSlice s0 s1).getIndex i j < ((h v.data_ptr).length : Int)) :
    ∃ h1 : Store V, (v.newFromSlice s0 s1).set h i j x = some h1 ∧
      v.get h1 (s0.start + i * s0.step) (s1.start + j * s1.step) = some x := by
  have hidx : (v.newFromSlice s0 s1).getIndex i j
      = v.getIndex (s0.start + i * s0.step) (s1.start + j * s1.step) :=
    getIndex_ofSlices v._md s0 s1 i j hi0 hi hj0 hj
  have hptr : (v.newFromSlice s0 s1).data_ptr = v.data_ptr := rfl
  refine ⟨fun p => if p = v.data_ptr then
      (h p).set ((v.newFromSlice s0 s1).getIndex i j).toNat x else h p, ?_, ?_⟩
  · simp only [ExpressionArray.set, hptr]
    rw [if_pos ⟨hlo, hhi⟩]
  · simp only [ExpressionArray.get, ← hidx, if_true, List.length_set]
    rw [if_pos ⟨hlo, hhi⟩]
    rw [List.getElem?_set_self]
    omega

/-- Witness for C2: 99 written at `(0, 1)` of row 1 of the 3 x 3 view over the
nine-element buffer is read back at `(1, 1)` of the parent. -/
theorem newFromSlice_set_get_witness :
    ∃ h1 : Store Int,
      (view33.newFromSlice (SliceDesc.single ⟨1⟩) (SliceDesc.full ⟨3⟩)).set store9 0 1 99
        = some h1 ∧
      view33.get h1 ((SliceDesc.single ⟨1⟩).start + 0 * (SliceDesc.single ⟨1⟩).step)
        ((SliceDesc.full ⟨3⟩).start + 1 * (SliceDesc.full ⟨3⟩).step) = some 99 :=
  newFromSlice_set_get store9 view33 (SliceDesc.single ⟨1⟩) (SliceDesc.full ⟨3⟩) 0 1 99
    (by decide) (by decide) (by decide) (by decide) (by decide) (by decide)

/-- C3 (the code at a sliced view). Row 1 of a 3 x 3 matrix has offset 3;
`transposed()` builds its result with the offset-less constructor, so
transposing twice returns offset 0 and not the original metadata. -/
theorem transposed_transposed_row1 :
    row1 = { _mode := 0, _offset := 3, _shape := (1, 3), _stride := (3, 1) } ∧
    row1.transposed.transposed
      = { _mode := 0, _offset := 0, _shape := (1, 3), _stride := (3, 1) } ∧
    row1.transposed.transposed ≠ row1 := by
  decide

/-- C4 (the code at a sliced view). The transposed view of row 1 of a 3 x 3
matrix resolves `(i, 0)` to `i`, while the original view resolves `(0, i)` to
`3 + i`: the transposed view addresses row 0 of the buffer. -/
theorem newTransposed_row1_getIndex :
    (view33.newFromSlice (SliceDesc.single ⟨1⟩) (SliceDesc.full ⟨3⟩)).newTransposed._md._shape
      = (3, 1) ∧
    ((view33.newFromSlice (SliceDesc.single ⟨1⟩) (SliceDesc.full ⟨3⟩)).newTransposed.getIndex 0 0
      = 0 ∧
     (view33.newFromSlice (SliceDesc.single ⟨1⟩) (SliceDesc.full ⟨3⟩)).getIndex 0 0 = 3) ∧
    ((view33.newFromSlice (SliceDesc.single ⟨1⟩) (SliceDesc.full ⟨3⟩)).newTransposed.getIndex 2 0
      = 2 ∧
     (view33.newFromSlice (SliceDesc.single ⟨1⟩) (SliceDesc.full ⟨3⟩)).getIndex 0 2 = 5) := by
  decide

/-- C5 (counterexample). The offset+shape+stride constructor stores the strides
it is given: with shape `(1,1)` and strides `(5,7)`, arguments its assertion
rejects, the value built has shape `(1,1)` and stride `(5,7)`. -/
theorem ofOffsetShapeStride_breaks_scalarStride :
    (MetaData.ofOffsetShapeStride ARRAY_MODE 0 1 1 5 7)._shape = (1, 1) ∧
    (MetaData.ofOffsetShapeStride ARRAY_MODE 0 1 1 5 7)._stride = (5, 7) ∧
    ¬ ScalarStride (MetaData.ofOffsetShapeStride ARRAY_MODE 0 1 1 5 7) ∧
    ¬ MetaData.ofOffsetShapeStride_asserts 1 1 5 7 := by
  decide

/-- C5 (amended). Every `MetaData` obtained from the default, shape-only,
shape+stride, slice-derived and copy constructors, from the offset+shape+stride
constructor with arguments that pass its assertion, from `transposed()`,
`setMode()` or the resolver `newMetadata`, has stride `(0,0)` whenever its shape
is `(1,1)`. -/
theorem produced_scalarStride (c : OpCodes) (m : MetaData) (h : Produced c m) :
    m._shape = (1, 1) → m._stride = (0, 0) := by
  induction h with
  | empty => exact scalarStride_empty
  | ofShape mode a b => exact scalarStride_ofShape mode a b
  | ofShapeStride mode a b p q => exact scalarStride_ofShapeStride mode a b p q
  | ofOffsetShapeStride mode off a b p q hassert =>
    intro hs
    simp only [MetaData.ofOffsetShapeStride, Prod.mk.injEq] at hs
    obtain ⟨hp, hq⟩ := hassert hs
    simp [MetaData.ofOffsetShapeStride, hp, hq]
  | ofSlices md s0 s1 _ _ =>
    intro hs
    simp only [MetaData.ofSlices, Prod.mk.injEq] at hs
    simp [MetaData.ofSlices, hs.1, hs.2]
  | copy md _ ih => exact ih
  | transposed md _ _ => exact scalarStride_ofShapeStride _ _ _ _ _
  | setMode md new_mode _ ih => exact ih
  | newMetadata op_type md1 md2 _ _ _ _ => exact scalarStride_newMetadata c op_type md1 md2

/-- Witness for C5: the `(1,3)` by `(3,1)` matrix product resolves to a `(1,1)`
result, transposed afterwards; its stride is `(0,0)`. -/
theorem produced_scalarStride_witness :
    Produced sampleCodes
      (newMetadata sampleCodes 3 (MetaData.ofShape 0 1 3) (MetaData.ofShape 0 3 1)).1.transposed ∧
    (newMetadata sampleCodes 3 (MetaData.ofShape 0 1 3) (MetaData.ofShape 0 3 1)).1.transposed._shape
      = (1, 1) ∧
    (newMetadata sampleCodes 3 (MetaData.ofShape 0 1 3) (MetaData.ofShape 0 3 1)).1.transposed._stride
      = (0, 0) :=
  ⟨Produced.transposed _ (Produced.newMetadata 3 _ _ (Produced.ofShape 0 1 3)
      (Produced.ofShape 0 3 1)),
   by decide,
   produced_scalarStride sampleCodes _
     (Produced.transposed _ (Produced.newMetadata 3 _ _ (Produced.ofShape 0 1 3)
       (Produced.ofShape 0 3 1)))
     (by decide)⟩

/-- C6 (counterexample). The whole of a 2 x 2 view with strides `(0,0)`, taken
with two full slices, has shape `(2,2)`, which is not `(1,1)`, and stride
`(0,0)`: the product rule itself gives `(0*1, 0*1)`. -/
theorem ofSlices_zero_stride_parent :
    zeroStride22 = { _mode := 1, _offset := 0, _shape := (2, 2), _stride := (0, 0) } ∧
    (SliceDesc.full ⟨2⟩).Valid ∧ 0 ≤ (SliceDesc.full ⟨2⟩).size ∧
    (MetaData.ofSlices zeroStride22 (SliceDesc.full ⟨2⟩) (SliceDesc.full ⟨2⟩))._shape = (2, 2) ∧
    (MetaData.ofSlices zeroStride22 (SliceDesc.full ⟨2⟩) (SliceDesc.full ⟨2⟩))._shape ≠ (1, 1) ∧
    (MetaData.ofSlices zeroStride22 (SliceDesc.full ⟨2⟩) (SliceDesc.full ⟨2⟩))._stride
      = (0, 0) := by
  decide

/-- C6 (amended). For slice descriptors (single, full, or general with a
non-zero step dividing its extent) of non-negative size, the derived `MetaData`
has the parent's mode, offset `offset + s0.start()*stride(0) +
s1.start()*stride(1)`, shape `(s0.size(), s1.size())`, and stride
`(stride(0)*s0.step(), stride(1)*s1.step())` unless the new shape is exactly
`(1,1)`, in which case the stride is `(0,0)`; when the product stride is not
itself `(0,0)`, the stride is `(0,0)` only in that case. -/
theorem ofSlices_fields (m : MetaData) (s0 s1 : SliceDesc)
    (_h0 : s0.Valid) (_h1 : s1.Valid) (hn0 : 0 ≤ s0.size) (hn1 : 0 ≤ s1.size) :
    (MetaData.ofSlices m s0 s1).mode = m.mode ∧
    (MetaData.ofSlices m s0 s1).offset
      = m.offset + s0.start * m.stride 0 + s1.start * m.stride 1 ∧
    (MetaData.ofSlices m s0 s1)._shape = (s0.size, s1.size) ∧
    (MetaData.ofSlices m s0 s1)._stride
      = (if (MetaData.ofSlices m s0 s1)._shape = (1, 1) then (0, 0)
         else (m.stride 0 * s0.step, m.stride 1 * s1.step)) ∧
    ((m.stride 0 * s0.step, m.stride 1 * s1.step) ≠ (0, 0) →
      ((MetaData.ofSlices m s0 s1)._stride = (0, 0)
        ↔ (MetaData.ofSlices m s0 s1)._shape = (1, 1))) := by
  have hstride : (MetaData.ofSlices m s0 s1)._stride
      = (if (MetaData.ofSlices m s0 s1)._shape = (1, 1) then (0, 0)
         else (m.stride 0 * s0.step, m.stride 1 * s1.step)) := by
    simp only [MetaData.ofSlices, Prod.mk.injEq, mul_eq_one_of_nonneg _ _ hn0 hn1,
      MetaData.stride_zero, MetaData.stride_one]
  refine ⟨rfl, rfl, rfl, hstride, ?_⟩
  intro hne
  rw [hstride]
  by_cases hsh : (MetaData.ofSlices m s0 s1)._shape = (1, 1)
  · rw [if_pos hsh]
    exact ⟨fun _ => hsh, fun _ => rfl⟩
  · rw [if_neg hsh]
    exact ⟨fun he => absurd he hne, fun he => absurd he hsh⟩

/-- Witness for C6: rows 0 and 2 and columns 1 and 2 of the 3 x 3 matrix have
offset 1, shape `(2,2)` and stride `(6,1)`. -/
theorem ofSlices_fields_witness :
    (SliceDesc.general ⟨0, 4, 2⟩).Valid ∧ (SliceDesc.general ⟨1, 3, 1⟩).Valid ∧
    0 ≤ (SliceDesc.general ⟨0, 4, 2⟩).size ∧ 0 ≤ (SliceDesc.general ⟨1, 3, 1⟩).size ∧
    (MetaData.ofSlices m33 (SliceDesc.general ⟨0, 4, 2⟩) (SliceDesc.general ⟨1, 3, 1⟩)).offset
      = m33.offset + (SliceDesc.general ⟨0, 4, 2⟩).start * m33.stride 0
          + (SliceDesc.general ⟨1, 3, 1⟩).start * m33.stride 1 ∧
    (MetaData.ofSlices m33 (SliceDesc.general ⟨0, 4, 2⟩) (SliceDesc.general ⟨1, 3, 1⟩))
      = { _mode := 0, _offset := 1, _shape := (2, 2), _stride := (6, 1) } :=
  ⟨by decide, by decide, by decide, by decide,
   (ofSlices_fields m33 (SliceDesc.general ⟨0, 4, 2⟩) (SliceDesc.general ⟨1, 3, 1⟩)
      (by decide) (by decide) (by decide) (by decide)).2.1,
   by decide⟩

/-- C7. When the matrix-product rule does not apply, `newMetadata` sets `okay`
to true exactly when the shapes are equal, or the first operand has shape
`(1,1)`, or the second operand has shape `(1,1)`. -/
theorem newMetadata_okay_iff (c : OpCodes) (op_type : Int) (A B : MetaData)
    (h : ¬ matrixProductRule c op_type A B) :
    (newMetadata c op_type A B).2 = true
      ↔ (A._shape = B._shape ∨ A._shape = (1, 1) ∨ B._shape = (1, 1)) := by
  unfold matrixProductRule at h
  unfold newMetadata
  simp only [if_neg h, MetaData.shape_zero, MetaData.shape_one, Prod.ext_iff]
  split_ifs <;> simp_all

/-- Witness for C7: shapes `(3,4)` and `(4,3)` under add give `okay = false`. -/
theorem newMetadata_okay_iff_witness :
    ¬ matrixProductRule sampleCodes 1 (MetaData.ofShape 1 3 4) (MetaData.ofShape 1 4 3) ∧
    ((newMetadata sampleCodes 1 (MetaData.ofShape 1 3 4) (MetaData.ofShape 1 4 3)).2 = true
      ↔ ((MetaData.ofShape 1 3 4)._shape = (MetaData.ofShape 1 4 3)._shape
          ∨ (MetaData.ofShape 1 3 4)._shape = (1, 1)
          ∨ (MetaData.ofShape 1 4 3)._shape = (1, 1))) ∧
    (newMetadata sampleCodes 1 (MetaData.ofShape 1 3 4) (MetaData.ofShape 1 4 3)).2 = false :=
  ⟨by decide,
   newMetadata_okay_iff sampleCodes 1 (MetaData.ofShape 1 3 4) (MetaData.ofShape 1 4 3)
     (by decide),
   by decide⟩

/-- C8. For operands with non-negative shapes, when the code is the explicit
matrix product, or is multiply with `matrix_multiplication_applies`,
`newMetadata` sets `okay` to true exactly when `A.shape(1) == B.shape(0)`; the
accepted result has shape `(A.shape(0), B.shape(1))`, offset 0 and stride
`(B.shape(1), 1)`, or `(0,0)` for a `(1,1)` result. -/
theorem newMetadata_matrix_product (c : OpCodes) (op_type : Int) (A B : MetaData)
    (h : matrixProductRule c op_type A B) (hr : 0 ≤ A.shape 0) (hc : 0 ≤ B.shape 1) :
    ((newMetadata c op_type A B).2 = true ↔ A.shape 1 = B.shape 0) ∧
    ((newMetadata c op_type A B).2 = true →
      (newMetadata c op_type A B).1._shape = (A.shape 0, B.shape 1) ∧
      (newMetadata c op_type A B).1.offset = 0 ∧
      (newMetadata c op_type A B).1._stride
        = if (newMetadata c op_type A B).1._shape = (1, 1) then (0, 0)
          else (B.shape 1, 1)) := by
  have key := newMetadata_of_rule c op_type A B h
  by_cases hd : A.shape 1 = B.shape 0
  · rw [key, if_pos hd]
    refine ⟨by simp [hd], fun _ => ⟨rfl, rfl, ?_⟩⟩
    simp only [MetaData.ofShape, Prod.mk.injEq, mul_eq_one_of_nonneg _ _ hr hc]
  · rw [key, if_neg hd]
    simp [hd]

/-- Witness for C8: multiply of two matrix-mode operands of shapes `(2,3)` and
`(3,4)`, with the simple flag set, resolves to shape `(2,4)` with stride
`(4,1)`; the explicit matrix product of `(2,3)` and `(5,4)` gives
`okay = false`. -/
theorem newMetadata_matrix_product_witness :
    matrixProductRule sampleCodes 258 (MetaData.ofShape 0 2 3) (MetaData.ofShape 0 3 4) ∧
    0 ≤ (MetaData.ofShape 0 2 3).shape 0 ∧ 0 ≤ (MetaData.ofShape 0 3 4).shape 1 ∧
    (newMetadata sampleCodes 258 (MetaData.ofShape 0 2 3) (MetaData.ofShape 0 3 4)).2 = true ∧
    (newMetadata sampleCodes 258 (MetaData.ofShape 0 2 3) (MetaData.ofShape 0 3 4)).1._shape
      = (2, 4) ∧
    (newMetadata sampleCodes 258 (MetaData.ofShape 0 2 3) (MetaData.ofShape 0 3 4)).1._stride
      = (4, 1) ∧
    ((newMetadata sampleCodes 3 (MetaData.ofShape 0 2 3) (MetaData.ofShape 0 5 4)).2 = true
      ↔ (MetaData.ofShape 0 2 3).shape 1 = (MetaData.ofShape 0 5 4).shape 0) ∧
    (newMetadata sampleCodes 3 (MetaData.ofShape 0 2 3) (MetaData.ofShape 0 5 4)).2 = false :=
  ⟨by decide, by decide, by decide,
   (newMetadata_matrix_product sampleCodes 258 (MetaData.ofShape 0 2 3)
      (MetaData.ofShape 0 3 4) (by decide) (by decide) (by decide)).1.2 (by decide),
   ((newMetadata_matrix_product sampleCodes 258 (MetaData.ofShape 0 2 3)
      (MetaData.ofShape 0 3 4) (by decide) (by decide) (by decide)).2 (by decide)).1,
   by decide,
   (newMetadata_matrix_product sampleCodes 3 (MetaData.ofShape 0 2 3)
      (MetaData.ofShape 0 5 4) (by decide) (by decide) (by decide)).1,
   by decide⟩

/-- C9. For operands of equal, non-negative shape that satisfy the
scalar-stride invariant and on which the matrix-product rule does not apply,
`newMetadata` returns `okay = true` with that shape; when the strides are equal
too the result has exactly the common stride, otherwise it has the default
contiguous stride `(shape(1), 1)`. -/
theorem newMetadata_equal_shape (c : OpCodes) (op_type : Int) (A B : MetaData)
    (h : ¬ matrixProductRule c op_type A B) (hs : A._shape = B._shape)
    (hn0 : 0 ≤ A.shape 0) (hn1 : 0 ≤ A.shape 1)
    (hA : ScalarStride A) (hB : ScalarStride B) :
    (newMetadata c op_type A B).2 = true ∧
    (newMetadata c op_type A B).1._shape = A._shape ∧
    (A._stride = B._stride → (newMetadata c op_type A B).1._stride = A._stride) ∧
    (A._stride ≠ B._stride → (newMetadata c op_type A B).1._stride = (A.shape 1, 1)) := by
  have key := newMetadata_of_not_rule c op_type A B h
  have hs' : A.shape 0 = B.shape 0 ∧ A.shape 1 = B.shape 1 := by
    simp [MetaData.shape_zero, MetaData.shape_one, hs]
  rw [if_pos hs'] at key
  by_cases hst : A._stride = B._stride
  · have hst' : A.stride 0 = B.stride 0 ∧ A.stride 1 = B.stride 1 := by
      simp [MetaData.stride_zero, MetaData.stride_one, hst]
    rw [if_pos hst'] at key
    rw [key]
    refine ⟨rfl, rfl, fun _ => ?_, fun hne => absurd hst hne⟩
    by_cases h11 : A._shape = (1, 1)
    · have h1 : A.shape 0 = 1 ∧ A.shape 1 = 1 := by
        simp [MetaData.shape_zero, MetaData.shape_one, h11]
      simp only [MetaData.ofShapeStride, if_pos h1]
      exact (hA h11).symm
    · have h1 : ¬ (A.shape 0 = 1 ∧ A.shape 1 = 1) := fun hc =>
        h11 (Prod.ext hc.1 hc.2)
      simp only [MetaData.ofShapeStride, if_neg h1]
      rfl
  · have hst' : ¬ (A.stride 0 = B.stride 0 ∧ A.stride 1 = B.stride 1) := by
      intro hc
      exact hst (Prod.ext hc.1 hc.2)
    rw [if_neg hst'] at key
    rw [key]
    refine ⟨rfl, rfl, fun he => absurd he hst, fun _ => ?_⟩
    have hp : ¬ (A.shape 0 * A.shape 1 = 1) := by
      intro hp
      have h1 := (mul_eq_one_of_nonneg _ _ hn0 hn1).1 hp
      have h11 : A._shape = (1, 1) := Prod.ext h1.1 h1.2
      exact hst ((hA h11).trans (hB (hs ▸ h11)).symm)
    simp only [MetaData.ofShape, if_neg hp]

/-- Witness for C9: two `(3,4)` operands with the identical stride `(4,1)`
under add resolve to shape `(3,4)` with stride `(4,1)`. -/
theorem newMetadata_equal_shape_witness :
    ¬ matrixProductRule sampleCodes 1 (MetaData.ofShape 0 3 4) (MetaData.ofShape 1 3 4) ∧
    0 ≤ (MetaData.ofShape 0 3 4).shape 0 ∧ 0 ≤ (MetaData.ofShape 0 3 4).shape 1 ∧
    ScalarStride (MetaData.ofShape 0 3 4) ∧ ScalarStride (MetaData.ofShape 1 3 4) ∧
    (newMetadata sampleCodes 1 (MetaData.ofShape 0 3 4) (MetaData.ofShape 1 3 4)).2 = true ∧
    (newMetadata sampleCodes 1 (MetaData.ofShape 0 3 4) (MetaData.ofShape 1 3 4)).1._shape
      = (MetaData.ofShape 0 3 4)._shape ∧
    (MetaData.ofShape 0 3 4)._stride = (4, 1) ∧
    (newMetadata sampleCodes 1 (MetaData.ofShape 0 3 4) (MetaData.ofShape 1 3 4)).1._stride
      = (MetaData.ofShape 0 3 4)._stride :=
  ⟨by decide, by decide, by decide, by decide, by decide,
   (newMetadata_equal_shape sampleCodes 1 (MetaData.ofShape 0 3 4) (MetaData.ofShape 1 3 4)
      (by decide) (by decide) (by decide) (by decide) (by decide) (by decide)).1,
   (newMetadata_equal_shape sampleCodes 1 (MetaData.ofShape 0 3 4) (MetaData.ofShape 1 3 4)
      (by decide) (by decide) (by decide) (by decide) (by decide) (by decide)).2.1,
   by decide,
   (newMetadata_equal_shape sampleCodes 1 (MetaData.ofShape 0 3 4) (MetaData.ofShape 1 3 4)
      (by decide) (by decide) (by decide) (by decide) (by decide) (by decide)).2.2.1
      (by decide)⟩

/-- C10. For a code other than the explicit matrix product, a `(1,1)` operand
`S` with stride `(0,0)` and any operand `X`, `newMetadata` returns `okay = true`
in both operand orders, with the shape of `X`, the stride the shape-only
constructor assigns to that shape (`(X.shape(1), 1)`, or `(0,0)` when the
product of the sizes is 1), and mode Matrix if either input is Matrix and Array
otherwise. -/
theorem newMetadata_scalar_broadcast (c : OpCodes) (op_type : Int) (S X : MetaData)
    (hop : Int.land op_type c.OP_SIMPLE_MASK ≠ c.OP_B_MATRIXMULTIPLY)
    (hS : S._shape = (1, 1)) (_hSt : S._stride = (0, 0)) :
    ((newMetadata c op_type S X).2 = true ∧
      (newMetadata c op_type S X).1._shape = X._shape ∧
      (newMetadata c op_type S X).1._stride
        = (if X.shape 0 * X.shape 1 = 1 then (0, 0) else (X.shape 1, 1)) ∧
      (newMetadata c op_type S X).1.mode
        = if S.mode = MATRIX_MODE ∨ X.mode = MATRIX_MODE then MATRIX_MODE else ARRAY_MODE) ∧
    ((newMetadata c op_type X S).2 = true ∧
      (newMetadata c op_type X S).1._shape = X._shape ∧
      (newMetadata c op_type X S).1._stride
        = (if X.shape 0 * X.shape 1 = 1 then (0, 0) else (X.shape 1, 1)) ∧
      (newMetadata c op_type X S).1.mode
        = if S.mode = MATRIX_MODE ∨ X.mode = MATRIX_MODE then MATRIX_MODE else ARRAY_MODE) := by
  have hS0 : S.shape 0 = 1 := by rw [MetaData.shape_zero, hS]
  have hS1 : S.shape 1 = 1 := by rw [MetaData.shape_one, hS]
  have hSX : ¬ matrixProductRule c op_type S X := by
    unfold matrixProductRule
    simp [MetaData.matrix_multiplication_applies, hS0, hS1, hop]
  have hXS : ¬ matrixProductRule c op_type X S := by
    unfold matrixProductRule
    simp [MetaData.matrix_multiplication_applies, hS0, hS1, hop]
  have hXe : X._shape = (X.shape 0, X.shape 1) := rfl
  have key1 : newMetadata c op_type S X
      = (MetaData.ofShape (newMode op_type S.mode X.mode) (X.shape 0) (X.shape 1), true) := by
    rw [newMetadata_of_not_rule c op_type S X hSX]
    by_cases he : S.shape 0 = X.shape 0 ∧ S.shape 1 = X.shape 1
    · have hX0 : X.shape 0 = 1 := by rw [← he.1, hS0]
      have hX1 : X.shape 1 = 1 := by rw [← he.2, hS1]
      rw [if_pos he]
      by_cases hst : S.stride 0 = X.stride 0 ∧ S.stride 1 = X.stride 1
      · rw [if_pos hst]
        simp [MetaData.ofShape, MetaData.ofShapeStride, hX0, hX1, hS0, hS1]
      · rw [if_neg hst, hS0, hS1, hX0, hX1]
    · rw [if_neg he, if_pos ⟨hS0, hS1⟩]
  have key2 : newMetadata c op_type X S
      = (MetaData.ofShape (newMode op_type S.mode X.mode) (X.shape 0) (X.shape 1), true) := by
    rw [newMetadata_of_not_rule c op_type X S hXS, newMode_comm op_type X.mode S.mode]
    by_cases he : X.shape 0 = S.shape 0 ∧ X.shape 1 = S.shape 1
    · have hX0 : X.shape 0 = 1 := by rw [he.1, hS0]
      have hX1 : X.shape 1 = 1 := by rw [he.2, hS1]
      rw [if_pos he]
      by_cases hst : X.stride 0 = S.stride 0 ∧ X.stride 1 = S.stride 1
      · rw [if_pos hst]
        simp [MetaData.ofShape, MetaData.ofShapeStride, hX0, hX1]
      · rw [if_neg hst]
    · have hX : ¬ (X.shape 0 = 1 ∧ X.shape 1 = 1) := by
        intro hc
        exact he ⟨by rw [hc.1, hS0], by rw [hc.2, hS1]⟩
      rw [if_neg he, if_neg hX, if_pos ⟨hS0, hS1⟩]
  rw [key1, key2]
  exact ⟨⟨rfl, hXe.symm, rfl, rfl⟩, ⟨rfl, hXe.symm, rfl, rfl⟩⟩

/-- Witness for C10: the metadata of a `Scalar` against a `(5,5)` matrix under
add resolves to shape `(5,5)`, stride `(5,1)`, Matrix mode, in both orders. -/
theorem newMetadata_scalar_broadcast_witness :
    Int.land 1 sampleCodes.OP_SIMPLE_MASK ≠ sampleCodes.OP_B_MATRIXMULTIPLY ∧
    (MetaData.ofShapeStride ARRAY_MODE 1 1 0 0)._shape = (1, 1) ∧
    (MetaData.ofShapeStride ARRAY_MODE 1 1 0 0)._stride = (0, 0) ∧
    (newMetadata sampleCodes 1 (MetaData.ofShapeStride ARRAY_MODE 1 1 0 0)
        (MetaData.ofShape MATRIX_MODE 5 5)).2 = true ∧
    (newMetadata sampleCodes 1 (MetaData.ofShapeStride ARRAY_MODE 1 1 0 0)
        (MetaData.ofShape MATRIX_MODE 5 5)).1._shape = (5, 5) ∧
    (newMetadata sampleCodes 1 (MetaData.ofShape MATRIX_MODE 5 5)
        (MetaData.ofShapeStride ARRAY_MODE 1 1 0 0)).2 = true ∧
    (newMetadata sampleCodes 1 (MetaData.ofShape MATRIX_MODE 5 5)
        (MetaData.ofShapeStride ARRAY_MODE 1 1 0 0)).1._shape = (5, 5) :=
  ⟨by decide, by decide, by decide,
   (newMetadata_scalar_broadcast sampleCodes 1 (MetaData.ofShapeStride ARRAY_MODE 1 1 0 0)
      (MetaData.ofShape MATRIX_MODE 5 5) (by decide) (by decide) (by decide)).1.1,
   (newMetadata_scalar_broadcast sampleCodes 1 (MetaData.ofShapeStride ARRAY_MODE 1 1 0 0)
      (MetaData.ofShape MATRIX_MODE 5 5) (by decide) (by decide) (by decide)).1.2.1,
   (newMetadata_scalar_broadcast sampleCodes 1 (MetaData.ofShapeStride ARRAY_MODE 1 1 0 0)
      (MetaData.ofShape MATRIX_MODE 5 5) (by decide) (by decide) (by decide)).2.1,
   (newMetadata_scalar_broadcast sampleCodes 1 (MetaData.ofShapeStride ARRAY_MODE 1 1 0 0)
      (MetaData.ofShape MATRIX_MODE 5 5) (by decide) (by decide) (by decide)).2.2.1⟩

/-- `matrix_multiplication_applies` does not depend on the order of the two
operands. -/
theorem matrix_multiplication_applies_comm (A B : MetaData) :
    A.matrix_multiplication_applies B = B.matrix_multiplication_applies A := by
  unfold MetaData.matrix_multiplication_applies
  cases (A.mode == MATRIX_MODE) <;> cases (B.mode == MATRIX_MODE) <;>
    cases (A.shape 0 == 1 && A.shape 1 == 1) <;>
    cases (B.shape 0 == 1 && B.shape 1 == 1) <;> rfl

/-- The matrix-product rule does not depend on the order of the two operands. -/
theorem matrixProductRule_comm (c : OpCodes) (op_type : Int) (A B : MetaData) :
    matrixProductRule c op_type A B ↔ matrixProductRule c op_type B A := by
  unfold matrixProductRule
  rw [matrix_multiplication_applies_comm A B]

/-- C11. `A.matrix_multiplication_applies(B)` is true exactly when at least one
of `A`, `B` has mode Matrix and neither has shape `(1,1)`; it is symmetric in
`A` and `B`. -/
theorem matrix_multiplication_applies_iff (A B : MetaData) :
    (A.matrix_multiplication_applies B = true
      ↔ (A.mode = MATRIX_MODE ∨ B.mode = MATRIX_MODE)
          ∧ A._shape ≠ (1, 1) ∧ B._shape ≠ (1, 1)) ∧
    A.matrix_multiplication_applies B = B.matrix_multiplication_applies A := by
  refine ⟨?_, matrix_multiplication_applies_comm A B⟩
  simp only [MetaData.matrix_multiplication_applies, MetaData.shape_zero, MetaData.shape_one,
    Bool.and_eq_true, Bool.or_eq_true, beq_iff_eq, Bool.not_eq_true', Bool.and_eq_false_iff,
    ne_eq, Prod.ext_iff, not_and_or, and_assoc]
  simp only [beq_eq_false_iff_ne, ne_eq]

/-- C12 (counterexample). For a 2 x 3 view the destination of a reduction along
axis 0 has shape `(1,3)`, not `(2,1)`, and along axis 1 it has shape `(2,1)`,
not `(1,3)`. -/
theorem newFromReduction_shape_2x3 :
    ((ExpressionArray.ofEnv 0 (MetaData.ofShape ARRAY_MODE 2 3)).newFromReduction ROp.sum false
        ones9 7 0 0).1._md._shape = (1, 3) ∧
    ((ExpressionArray.ofEnv 0 (MetaData.ofShape ARRAY_MODE 2 3)).newFromReduction ROp.sum false
        ones9 7 0 1).1._md._shape = (2, 1) := by
  decide

/-- C12 (amended). For a view of shape `(r, c)`, `newFromReduction` produces a
destination of shape `(1, c)` when the axis is 0, of shape `(r, 1)` when the
axis is 1, and of shape `(1, 1)` for any other axis value. -/
theorem newFromReduction_shape {V : Type} (op : ROp V) (is_simple : Bool) (h : Store V)
    (fresh : Nat) (init : V) (v : ExpressionArray) (axis : Int) :
    (v.newFromReduction op is_simple h fresh init 0).1._md._shape = (1, v.shape 1) ∧
    (v.newFromReduction op is_simple h fresh init 1).1._md._shape = (v.shape 0, 1) ∧
    (v.newFromReduction op is_simple h fresh init axis).1._md._shape
      = if axis = 0 then (1, v.shape 1) else if axis = 1 then (v.shape 0, 1) else (1, 1) := by
  refine ⟨rfl, rfl, ?_⟩
  by_cases h0 : axis = 0
  · subst h0; rfl
  · by_cases h1 : axis = 1
    · subst h1; rfl
    · simp [ExpressionArray.newFromReduction, ExpressionArray.ofEnv, MetaData.ofShape, h0, h1]

/-- With pairwise distinct case labels, the code `OP_U_NEGATIVE` hands the
negation functor to `unary_op` and then reaches `assert(false)`. -/
theorem newFromUnaryOp_negative {V : Type} (u : UnaryCodes) (UOp : Int → V → V) (h : Store V)
    (fresh : Nat) (init : V) (ea : ExpressionArray) (hd : u.Distinct) :
    (ea.newFromUnaryOp u UOp h fresh init u.OP_U_NEGATIVE).applied = some u.OP_U_NEGATIVE ∧
    (ea.newFromUnaryOp u UOp h fresh init u.OP_U_NEGATIVE).reaches_assert_false = true := by
  obtain ⟨_, h2, h3⟩ := hd
  unfold ExpressionArray.newFromUnaryOp
  simp only [if_neg (Ne.symm h2), if_neg (Ne.symm h3), if_true, and_self]

/-- C14 (the code at `OP_U_NEGATIVE`). On the 3 x 3 view, the identity and
absolute-value codes return without reaching `assert(false)`; the negation code
hands the negation functor to `unary_op` and then reaches `assert(false)`. -/
theorem newFromUnaryOp_negative_reaches_assert :
    (view33.newFromUnaryOp sampleUnaryCodes sampleUOp store9 7 0
        sampleUnaryCodes.OP_U_NO_TRANSLATE).reaches_assert_false = false ∧
    (view33.newFromUnaryOp sampleUnaryCodes sampleUOp store9 7 0
        sampleUnaryCodes.OP_U_ABS).reaches_assert_false = false ∧
    (view33.newFromUnaryOp sampleUnaryCodes sampleUOp store9 7 0
        sampleUnaryCodes.OP_U_NEGATIVE).applied = some sampleUnaryCodes.OP_U_NEGATIVE ∧
    (view33.newFromUnaryOp sampleUnaryCodes sampleUOp store9 7 0
        sampleUnaryCodes.OP_U_NEGATIVE).reaches_assert_false = true := by
  decide

/-- With distinct case labels and an accepted code, the dispatch runs
`matrix_multiply` exactly under the condition of the resolver's first `if`, and
an elementwise `binary_op` otherwise. -/
theorem binary_op_iff_rule (c : OpCodes) (op_type : Int) (A B : MetaData)
    (hd : c.Distinct) (ha : c.Accepts op_type) :
    (binary_op c op_type A B = some BinaryAlgorithm.matrix_multiply
      ↔ matrixProductRule c op_type A B) ∧
    (¬ matrixProductRule c op_type A B →
      ∃ code, binary_op c op_type A B = some (BinaryAlgorithm.elementwise code)) := by
  unfold OpCodes.Distinct at hd
  unfold OpCodes.Accepts at ha
  simp only [List.nodup_cons, List.mem_cons, List.mem_singleton, List.not_mem_nil, not_or,
    List.nodup_nil, and_true, not_false_eq_true] at hd
  simp only [List.mem_cons, List.mem_singleton, List.not_mem_nil, or_false] at ha
  obtain ⟨⟨h12, h13, h14, h15, h16⟩, ⟨h23, h24, h25, h26⟩, ⟨h34, h35, h36⟩, ⟨h45, h46⟩,
    h56⟩ := hd
  unfold binary_op matrixProductRule
  by_cases hm : A.matrix_multiplication_applies B = true
  · rcases ha with ha | ha | ha | ha | ha | ha <;>
      simp [ha, hm, h12, h13, h14, h15, h16, h23, h24, h25, h26, h34, h35, h36, h45, h46,
        h56, Ne.symm h12, Ne.symm h13, Ne.symm h14, Ne.symm h15, Ne.symm h16, Ne.symm h23,
        Ne.symm h24, Ne.symm h25, Ne.symm h26, Ne.symm h34, Ne.symm h35, Ne.symm h36,
        Ne.symm h45, Ne.symm h46, Ne.symm h56]
  · rcases ha with ha | ha | ha | ha | ha | ha <;>
      simp [ha, hm, h12, h13, h14, h15, h16, h23, h24, h25, h26, h34, h35, h36, h45, h46,
        h56, Ne.symm h12, Ne.symm h13, Ne.symm h14, Ne.symm h15, Ne.symm h16, Ne.symm h23,
        Ne.symm h24, Ne.symm h25, Ne.symm h26, Ne.symm h34, Ne.symm h35, Ne.symm h36,
        Ne.symm h45, Ne.symm h46, Ne.symm h56]

/-- The traced resolver returns what `newMetadata` returns. -/
theorem newMetadataTraced_snd (c : OpCodes) (op_type : Int) (md1 md2 : MetaData) :
    (newMetadataTraced c op_type md1 md2).2 = newMetadata c op_type md1 md2 := by
  unfold newMetadataTraced newMetadata
  simp only []
  split_ifs <;> rfl

/-- The traced resolver records its matrix-product branch exactly under the
condition of its first `if`. -/
theorem newMetadataTraced_fst_iff (c : OpCodes) (op_type : Int) (md1 md2 : MetaData) :
    (newMetadataTraced c op_type md1 md2).1 = ResolverBranch.matrix_product
      ↔ matrixProductRule c op_type md1 md2 := by
  unfold newMetadataTraced matrixProductRule
  simp only []
  split_ifs with h1 <;> simp [h1]

/-- C16. For a code accepted by the value-producing binary dispatch (with or
without the simple flag; the case labels of its `switch` are distinct) the
dispatch runs `matrix_multiply` exactly when `newMetadata` takes its
matrix-product branch for the same code and operands, and an elementwise
`binary_op` otherwise; when it runs `matrix_multiply`, what `newMetadata`
returns is the matrix-product shape `(A.shape(0), B.shape(1))` with `okay` set
by `A.shape(1) == B.shape(0)`. -/
theorem binary_op_matches_resolver (c : OpCodes) (op_type : Int) (A B : MetaData)
    (hd : c.Distinct) (ha : c.Accepts op_type) :
    (newMetadataTraced c op_type A B).2 = newMetadata c op_type A B ∧
    (binary_op c op_type A B = some BinaryAlgorithm.matrix_multiply
      ↔ (newMetadataTraced c op_type A B).1 = ResolverBranch.matrix_product) ∧
    ((newMetadataTraced c op_type A B).1 ≠ ResolverBranch.matrix_product →
      ∃ code, binary_op c op_type A B = some (BinaryAlgorithm.elementwise code)) ∧
    (binary_op c op_type A B = some BinaryAlgorithm.matrix_multiply →
      newMetadata c op_type A B
        = if A.shape 1 = B.shape 0 then
            (MetaData.ofShape (newMode op_type A.mode B.mode) (A.shape 0) (B.shape 1), true)
          else (MetaData.empty, false)) := by
  have hdisp := binary_op_iff_rule c op_type A B hd ha
  have hbr := newMetadataTraced_fst_iff c op_type A B
  refine ⟨newMetadataTraced_snd c op_type A B, hdisp.1.trans hbr.symm, ?_, ?_⟩
  · intro hne
    exact hdisp.2 (fun hrule => hne (hbr.2 hrule))
  · intro hmm
    exact newMetadata_of_rule c op_type A B (hdisp.1.1 hmm)

/-- Witness for C16: multiply with the simple flag on two 3 x 3 matrices runs
`matrix_multiply` and the resolver takes its matrix-product branch, returning
shape `(3,3)`; array-multiply on the same operands runs the elementwise
routine and the resolver takes its equal-shape branch. -/
theorem binary_op_matches_resolver_witness :
    sampleCodes.Distinct ∧ sampleCodes.Accepts 258 ∧ sampleCodes.Accepts 4 ∧
    (binary_op sampleCodes 258 m33 m33 = some BinaryAlgorithm.matrix_multiply
      ↔ (newMetadataTraced sampleCodes 258 m33 m33).1 = ResolverBranch.matrix_product) ∧
    binary_op sampleCodes 258 m33 m33 = some BinaryAlgorithm.matrix_multiply ∧
    (newMetadataTraced sampleCodes 258 m33 m33).2 = newMetadata sampleCodes 258 m33 m33 ∧
    newMetadata sampleCodes 258 m33 m33
      = ({ _mode := 0, _offset := 0, _shape := (3, 3), _stride := (3, 1) }, true) ∧
    (newMetadataTraced sampleCodes 4 m33 m33).1 = ResolverBranch.same_shape ∧
    (∃ code, binary_op sampleCodes 4 m33 m33 = some (BinaryAlgorithm.elementwise code)) :=
  ⟨by decide, by decide, by decide,
   (binary_op_matches_resolver sampleCodes 258 m33 m33 (by decide) (by decide)).2.1,
   by decide,
   (binary_op_matches_resolver sampleCodes 258 m33 m33 (by decide) (by decide)).1,
   by decide,
   by decide,
   (binary_op_matches_resolver sampleCodes 4 m33 m33 (by decide) (by decide)).2.2.1
     (by decide)⟩

/-- C17 (the code at two equally strided operands). Rows 0 and 2 of a 4 x 4
array have shape `(2,4)` and stride `(8,1)`; adding that view to itself
resolves to shape `(2,4)` with the stride `(8,1)` kept, so cell `(1,0)` of the
result has linear index 8, which is not below the 8 elements of a destination
allocated for it, and the access through such a destination is undefined. -/
theorem newMetadata_keeps_stride_out_of_bounds :
    evenRows = { _mode := 1, _offset := 0, _shape := (2, 4), _stride := (8, 1) } ∧
    newMetadata sampleCodes 1 evenRows evenRows
      = ({ _mode := 1, _offset := 0, _shape := (2, 4), _stride := (8, 1) }, true) ∧
    getIndex (newMetadata sampleCodes 1 evenRows evenRows).1 1 0 = 8 ∧
    (newMetadata sampleCodes 1 evenRows evenRows).1.shape 0
      * (newMetadata sampleCodes 1 evenRows evenRows).1.shape 1 = 8 ∧
    (ExpressionArray.ofEnv 7 (newMetadata sampleCodes 1 evenRows evenRows).1).get
      (allocBuffer ones9 7
        ((newMetadata sampleCodes 1 evenRows evenRows).1.shape 0
          * (newMetadata sampleCodes 1 evenRows evenRows).1.shape 1) 0) 1 0 = none := by
  decide

/-- C18 (the code at a sliced source). For row 1 of the 3 x 3 view (offset 3,
shape `(1,3)`) `newFromUnaryOp` allocates 3 elements and gives the destination
the source's metadata, so the destination resolves `(0,0)` to linear index 3,
outside its buffer of 3 elements, where an access has no defined result. -/
theorem newFromUnaryOp_sliced_out_of_bounds :
    ((view33.newFromSlice (SliceDesc.single ⟨1⟩) (SliceDesc.full ⟨3⟩)).newFromUnaryOp
        sampleUnaryCodes sampleUOp store9 7 0 sampleUnaryCodes.OP_U_ABS).dest._md
      = { _mode := 0, _offset := 3, _shape := (1, 3), _stride := (3, 1) } ∧
    ((view33.newFromSlice (SliceDesc.single ⟨1⟩) (SliceDesc.full ⟨3⟩)).newFromUnaryOp
        sampleUnaryCodes sampleUOp store9 7 0 sampleUnaryCodes.OP_U_ABS).dest.getIndex 0 0
      = 3 ∧
    ((view33.newFromSlice (SliceDesc.single ⟨1⟩) (SliceDesc.full ⟨3⟩)).newFromUnaryOp
        sampleUnaryCodes sampleUOp store9 7 0 sampleUnaryCodes.OP_U_ABS).dest.shape 0
      * ((view33.newFromSlice (SliceDesc.single ⟨1⟩) (SliceDesc.full ⟨3⟩)).newFromUnaryOp
        sampleUnaryCodes sampleUOp store9 7 0 sampleUnaryCodes.OP_U_ABS).dest.shape 1
      = 3 ∧
    ((view33.newFromSlice (SliceDesc.single ⟨1⟩) (SliceDesc.full ⟨3⟩)).newFromUnaryOp
        sampleUnaryCodes sampleUOp store9 7 0 sampleUnaryCodes.OP_U_ABS).dest.get
      (allocBuffer store9 7 3 0) 0 0 = none := by
  decide

/-- C20. When the matrix-product rule does not apply, `newMetadata` returns the
same `okay` flag and the same `MetaData` for `(A, B)` and for `(B, A)`, for
operands that satisfy the scalar-stride invariant. -/
theorem newMetadata_symmetric (c : OpCodes) (op_type : Int) (A B : MetaData)
    (h : ¬ matrixProductRule c op_type A B) (_hA : ScalarStride A) (_hB : ScalarStride B) :
    (newMetadata c op_type A B).2 = (newMetadata c op_type B A).2 ∧
    (newMetadata c op_type A B).1 = (newMetadata c op_type B A).1 := by
  have h' : ¬ matrixProductRule c op_type B A := fun hc =>
    h ((matrixProductRule_comm c op_type A B).2 hc)
  have key : newMetadata c op_type A B = newMetadata c op_type B A := by
    rw [newMetadata_of_not_rule c op_type A B h, newMetadata_of_not_rule c op_type B A h',
      newMode_comm op_type B.mode A.mode]
    by_cases he : A.shape 0 = B.shape 0 ∧ A.shape 1 = B.shape 1
    · have he' : B.shape 0 = A.shape 0 ∧ B.shape 1 = A.shape 1 := ⟨he.1.symm, he.2.symm⟩
      rw [if_pos he, if_pos he']
      by_cases hst : A.stride 0 = B.stride 0 ∧ A.stride 1 = B.stride 1
      · have hst' : B.stride 0 = A.stride 0 ∧ B.stride 1 = A.stride 1 :=
          ⟨hst.1.symm, hst.2.symm⟩
        rw [if_pos hst, if_pos hst', he.1, he.2, hst.1, hst.2]
      · have hst' : ¬ (B.stride 0 = A.stride 0 ∧ B.stride 1 = A.stride 1) := fun hc =>
          hst ⟨hc.1.symm, hc.2.symm⟩
        rw [if_neg hst, if_neg hst', he.1, he.2]
    · have he' : ¬ (B.shape 0 = A.shape 0 ∧ B.shape 1 = A.shape 1) := fun hc =>
        he ⟨hc.1.symm, hc.2.symm⟩
      rw [if_neg he, if_neg he']
      by_cases hA1 : A.shape 0 = 1 ∧ A.shape 1 = 1
      · have hB1 : ¬ (B.shape 0 = 1 ∧ B.shape 1 = 1) := fun hc =>
          he ⟨hA1.1.trans hc.1.symm, hA1.2.trans hc.2.symm⟩
        rw [if_pos hA1, if_neg hB1, if_pos hA1]
      · by_cases hB1 : B.shape 0 = 1 ∧ B.shape 1 = 1
        · rw [if_neg hA1, if_pos hB1, if_pos hB1]
        · rw [if_neg hA1, if_neg hB1, if_neg hB1, if_neg hA1]
  rw [key]
  exact ⟨rfl, rfl⟩

/-- Witness for C20: a scalar against a 5 x 5 matrix under add, in both orders. -/
theorem newMetadata_symmetric_witness :
    ¬ matrixProductRule sampleCodes 1 (MetaData.ofShapeStride ARRAY_MODE 1 1 0 0)
        (MetaData.ofShape MATRIX_MODE 5 5) ∧
    ScalarStride (MetaData.ofShapeStride ARRAY_MODE 1 1 0 0) ∧
    ScalarStride (MetaData.ofShape MATRIX_MODE 5 5) ∧
    (newMetadata sampleCodes 1 (MetaData.ofShapeStride ARRAY_MODE 1 1 0 0)
        (MetaData.ofShape MATRIX_MODE 5 5)).2
      = (newMetadata sampleCodes 1 (MetaData.ofShape MATRIX_MODE 5 5)
        (MetaData.ofShapeStride ARRAY_MODE 1 1 0 0)).2 ∧
    (newMetadata sampleCodes 1 (MetaData.ofShapeStride ARRAY_MODE 1 1 0 0)
        (MetaData.ofShape MATRIX_MODE 5 5)).1
      = (newMetadata sampleCodes 1 (MetaData.ofShape MATRIX_MODE 5 5)
        (MetaData.ofShapeStride ARRAY_MODE 1 1 0 0)).1 :=
  ⟨by decide, by decide, by decide,
   (newMetadata_symmetric sampleCodes 1 (MetaData.ofShapeStride ARRAY_MODE 1 1 0 0)
      (MetaData.ofShape MATRIX_MODE 5 5) (by decide) (by decide) (by decide)).1,
   (newMetadata_symmetric sampleCodes 1 (MetaData.ofShapeStride ARRAY_MODE 1 1 0 0)
      (MetaData.ofShape MATRIX_MODE 5 5) (by decide) (by decide) (by decide)).2⟩

/-- Index resolution of a fresh view with the default stride. -/
theorem getIndex_ofShape (mode r c i j : Int) (hr : 1 ≤ r) (hc : 1 ≤ c)
    (hi0 : 0 ≤ i) (hi : i < r) (hj0 : 0 ≤ j) (hj : j < c) :
    getIndex (MetaData.ofShape mode r c) i j = i * c + j := by
  by_cases hp : r * c = 1
  · obtain ⟨hr1, hc1⟩ := (mul_eq_one_of_nonneg r c (by omega) (by omega)).1 hp
    have hi' : i = 0 := by omega
    have hj' : j = 0 := by omega
    subst hi' hj'
    simp [getIndex, MetaData.ofShape, MetaData.offset, MetaData.stride, hp]
  · simp [getIndex, MetaData.ofShape, MetaData.offset, MetaData.stride, hp]
    ring

/-- Row-major indices stay below `r * c`. -/
theorem rowMajor_lt (r c i j : Int) (hi : i < r) (hj0 : 0 ≤ j) (hj : j < c) :
    i * c + j < r * c := by
  have h1 : (i + 1) * c ≤ r * c := by
    apply mul_le_mul_of_nonneg_right
    · omega
    · omega
  have h2 : (i + 1) * c = i * c + c := by ring
  omega

/-- Row-major indexing separates rows. -/
theorem rowMajor_row_eq (c i j i1 j1 : Int) (hj0 : 0 ≤ j) (hj : j < c)
    (hk0 : 0 ≤ j1) (hk : j1 < c) (he : i * c + j = i1 * c + j1) : i = i1 := by
  rcases lt_trichotomy i i1 with hlt | heq | hgt
  · exfalso
    have h1 : (i + 1) * c ≤ i1 * c := by
      apply mul_le_mul_of_nonneg_right
      · omega
      · omega
    have h2 : (i + 1) * c = i * c + c := by ring
    omega
  · exact heq
  · exfalso
    have h1 : (i1 + 1) * c ≤ i * c := by
      apply mul_le_mul_of_nonneg_right
      · omega
      · omega
    have h2 : (i1 + 1) * c = i1 * c + c := by ring
    omega

/-- C19. For `r >= 1` and `c >= 1` the fresh `MetaData(mode, r, c)` resolves an
in-range `(i, j)` to `i*c + j`, inside `[0, r*c)`; no two in-range cells share
an index, and every index of `[0, r*c)` is the index of an in-range cell. -/
theorem ofShape_getIndex_bijective (mode r c : Int) (hr : 1 ≤ r) (hc : 1 ≤ c) :
    (∀ i j : Int, 0 ≤ i → i < r → 0 ≤ j → j < c →
      getIndex (MetaData.ofShape mode r c) i j = i * c + j ∧
      0 ≤ getIndex (MetaData.ofShape mode r c) i j ∧
      getIndex (MetaData.ofShape mode r c) i j < r * c) ∧
    (∀ i j i1 j1 : Int, 0 ≤ i → i < r → 0 ≤ j → j < c → 0 ≤ i1 → i1 < r → 0 ≤ j1 → j1 < c →
      getIndex (MetaData.ofShape mode r c) i j = getIndex (MetaData.ofShape mode r c) i1 j1 →
      i = i1 ∧ j = j1) ∧
    (∀ k : Int, 0 ≤ k → k < r * c →
      ∃ i j : Int, 0 ≤ i ∧ i < r ∧ 0 ≤ j ∧ j < c ∧
        getIndex (MetaData.ofShape mode r c) i j = k) := by
  refine ⟨?_, ?_, ?_⟩
  · intro i j hi0 hi hj0 hj
    rw [getIndex_ofShape mode r c i j hr hc hi0 hi hj0 hj]
    refine ⟨rfl, ?_, rowMajor_lt r c i j hi hj0 hj⟩
    have : 0 ≤ i * c := mul_nonneg hi0 (by omega)
    omega
  · intro i j i1 j1 hi0 hi hj0 hj hi10 hi1 hj10 hj1 he
    rw [getIndex_ofShape mode r c i j hr hc hi0 hi hj0 hj,
      getIndex_ofShape mode r c i1 j1 hr hc hi10 hi1 hj10 hj1] at he
    have hrow : i = i1 := rowMajor_row_eq c i j i1 j1 hj0 hj hj10 hj1 he
    subst hrow
    exact ⟨rfl, by omega⟩
  · intro k hk0 hk
    have hcpos : 0 < c := by omega
    have hq0 : 0 ≤ k / c := Int.ediv_nonneg hk0 (by omega)
    have hq : k / c < r := Int.ediv_lt_of_lt_mul hcpos hk
    have hm0 : 0 ≤ k % c := Int.emod_nonneg k (by omega)
    have hm : k % c < c := Int.emod_lt_of_pos k hcpos
    refine ⟨k / c, k % c, hq0, hq, hm0, hm, ?_⟩
    rw [getIndex_ofShape mode r c (k / c) (k % c) hr hc hq0 hq hm0 hm]
    have := Int.ediv_add_emod k c
    rw [mul_comm] at this
    exact this

/-- Witness for C19: in a fresh 3 x 4 view, cell `(2, 3)` has index 11, and
index 7 is the index of an in-range cell. -/
theorem ofShape_getIndex_bijective_witness :
    (1 : Int) ≤ 3 ∧ (1 : Int) ≤ 4 ∧
    getIndex (MetaData.ofShape ARRAY_MODE 3 4) 2 3 = 2 * 4 + 3 ∧
    (∃ i j : Int, 0 ≤ i ∧ i < 3 ∧ 0 ≤ j ∧ j < 4 ∧
      getIndex (MetaData.ofShape ARRAY_MODE 3 4) i j = 7) :=
  ⟨by decide, by decide,
   ((ofShape_getIndex_bijective ARRAY_MODE 3 4 (by decide) (by decide)).1 2 3 (by decide)
      (by decide) (by decide) (by decide)).1,
   (ofShape_getIndex_bijective ARRAY_MODE 3 4 (by decide) (by decide)).2.2 7 (by decide)
      (by decide)⟩

/-- The nine-way `switch` of `newFromGeneralSlice` passes on the reclassified
descriptor of each slice. -/
theorem newFromGeneralSlice_eq (ea : ExpressionArray) (s0 s1 : Slice) :
    ea.newFromGeneralSlice s0 s1
      = ea.newFromSlice (s0.reclassify (ea.shape 0)) (s1.reclassify (ea.shape 1)) := by
  have c0 : s0.stop - s0.start = s0.step
      ∨ (¬ s0.stop - s0.start = s0.step ∧ (s0.step = 1 ∧ s0.stop - s0.start = ea._md.shape 0))
      ∨ (¬ s0.stop - s0.start = s0.step
          ∧ ¬ (s0.step = 1 ∧ s0.stop - s0.start = ea._md.shape 0)) := by
    tauto
  have c1 : s1.stop - s1.start = s1.step
      ∨ (¬ s1.stop - s1.start = s1.step ∧ (s1.step = 1 ∧ s1.stop - s1.start = ea._md.shape 1))
      ∨ (¬ s1.stop - s1.start = s1.step
          ∧ ¬ (s1.step = 1 ∧ s1.stop - s1.start = ea._md.shape 1)) := by
    tauto
  unfold Slice.reclassify
  dsimp only [ExpressionArray.newFromGeneralSlice, ExpressionArray.shape]
  rcases c0 with a0 | ⟨a0, b0⟩ | ⟨a0, b0⟩ <;> rcases c1 with a1 | ⟨a1, b1⟩ | ⟨a1, b1⟩ <;>
    (first
      | simp only [if_neg a0, if_neg b0]
      | simp only [if_neg a0, if_pos b0]
      | simp only [if_pos a0]) <;>
    (first
      | simp only [if_neg a1, if_neg b1]
      | simp only [if_neg a1, if_pos b1]
      | simp only [if_pos a1]) <;>
    simp [S2_IDX, SLICE_SINGLE, SLICE_FULL, SLICE_GENERAL]

/-- Reclassifying a valid general slice keeps its size. -/
theorem reclassify_size (s : Slice) (n : Int) (hs : s.size_asserts) :
    (s.reclassify n).size = s.size := by
  unfold Slice.reclassify
  by_cases a : s.stop - s.start = s.step
  · rw [if_pos a]
    simp only [SliceDesc.size, SliceSingle.size, Slice.size]
    have a' : s._stop - s._start = s._step := a
    rw [a', Int.tdiv_self hs.1]
  · rw [if_neg a]
    by_cases b : s.step = 1 ∧ s.stop - s.start = n
    · rw [if_pos b]
      have b1 : s._step = 1 := b.1
      have b2 : s._stop - s._start = n := b.2
      simp only [SliceDesc.size, SliceFull.size, Slice.size, b1, b2, Int.tdiv_one]
    · rw [if_neg b]
      rfl

/-- Reclassifying a valid general slice that stays inside its axis keeps every
selected index. -/
theorem reclassify_index (s : Slice) (n i : Int) (hs : s.size_asserts)
    (hin : s.InsideAxis n) (hi0 : 0 ≤ i) (hi : i < s.size) :
    (s.reclassify n).start + i * (s.reclassify n).step = s.start + i * s.step := by
  unfold Slice.reclassify
  by_cases a : s.stop - s.start = s.step
  · rw [if_pos a]
    have a' : s._stop - s._start = s._step := a
    have hsz : s.size = 1 := by
      simp only [Slice.size]
      rw [a', Int.tdiv_self hs.1]
    have hi' : i = 0 := by omega
    subst hi'
    simp [SliceDesc.start, SliceDesc.step, SliceSingle.start, SliceSingle.step]
  · rw [if_neg a]
    by_cases b : s.step = 1 ∧ s.stop - s.start = n
    · rw [if_pos b]
      have b1 : s._step = 1 := b.1
      have b2 : s._stop - s._start = n := b.2
      have hsz : s.size = n := by
        simp only [Slice.size, b1, b2, Int.tdiv_one]
      have hstep : s.step = 1 := b.1
      have hfirst := hin 0 (by omega)
      have hlast := hin (s.size - 1).toNat (by omega)
      have hcast : (((s.size - 1).toNat : Nat) : Int) = s.size - 1 := Int.toNat_of_nonneg (by omega)
      rw [hcast, hstep, hsz] at hlast
      rw [hstep] at hfirst
      have hstart : s.start = 0 := by
        have h1 := hfirst.1
        have h2 := hlast.2
        simp only [Nat.cast_zero, zero_mul, add_zero] at h1
        omega
      simp [SliceDesc.start, SliceDesc.step, SliceFull.start, SliceFull.step, hstart, hstep]
    · rw [if_neg b]
      rfl

/-- C15. For general slices with non-zero steps dividing their extents whose
selected indices lie inside the parent's axes, the view built by
`newFromGeneralSlice` has the shape of the view derived directly with the
general descriptors and resolves every in-range `(i, j)` to the same linear
index; both views share the parent's buffer. -/
theorem newFromGeneralSlice_refines (v : ExpressionArray) (s0 s1 : Slice)
    (h0 : s0.size_asserts) (h1 : s1.size_asserts)
    (hin0 : s0.InsideAxis (v.shape 0)) (hin1 : s1.InsideAxis (v.shape 1)) :
    (v.newFromGeneralSlice s0 s1)._md._shape
      = (v.newFromSlice (SliceDesc.general s0) (SliceDesc.general s1))._md._shape ∧
    (v.newFromGeneralSlice s0 s1).data_ptr
      = (v.newFromSlice (SliceDesc.general s0) (SliceDesc.general s1)).data_ptr ∧
    ∀ i j : Int, 0 ≤ i → i < s0.size → 0 ≤ j → j < s1.size →
      (v.newFromGeneralSlice s0 s1).getIndex i j
        = (v.newFromSlice (SliceDesc.general s0) (SliceDesc.general s1)).getIndex i j := by
  rw [newFromGeneralSlice_eq]
  have hz0 := reclassify_size s0 (v.shape 0) h0
  have hz1 := reclassify_size s1 (v.shape 1) h1
  refine ⟨?_, rfl, ?_⟩
  · show ((s0.reclassify (v.shape 0)).size, (s1.reclassify (v.shape 1)).size)
      = ((SliceDesc.general s0).size, (SliceDesc.general s1).size)
    rw [hz0, hz1]
    rfl
  · intro i j hi0 hi hj0 hj
    have e1 : (v.newFromSlice (s0.reclassify (v.shape 0)) (s1.reclassify (v.shape 1))).getIndex
          i j
        = Pycpx.getIndex v._md
            ((s0.reclassify (v.shape 0)).start + i * (s0.reclassify (v.shape 0)).step)
            ((s1.reclassify (v.shape 1)).start + j * (s1.reclassify (v.shape 1)).step) :=
      getIndex_ofSlices v._md _ _ i j hi0 (by rw [hz0]; exact hi) hj0 (by rw [hz1]; exact hj)
    have e2 : (v.newFromSlice (SliceDesc.general s0) (SliceDesc.general s1)).getIndex i j
        = Pycpx.getIndex v._md (s0.start + i * s0.step) (s1.start + j * s1.step) :=
      getIndex_ofSlices v._md (SliceDesc.general s0) (SliceDesc.general s1) i j hi0 hi hj0 hj
    rw [e1, e2, reclassify_index s0 (v.shape 0) i h0 hin0 hi0 hi,
      reclassify_index s1 (v.shape 1) j h1 hin1 hj0 hj]

/-- Witness for C15: on the 3 x 3 view, `Slice(1, 2, 1)` is reclassified as a
single index and `Slice(0, 3, 1)` as the full axis; cell `(0, 2)` resolves to
linear index 5 either way. -/
theorem newFromGeneralSlice_refines_witness :
    (Slice.mk 1 2 1).size_asserts ∧ (Slice.mk 0 3 1).size_asserts ∧
    (Slice.mk 1 2 1).InsideAxis (view33.shape 0) ∧
    (Slice.mk 0 3 1).InsideAxis (view33.shape 1) ∧
    (view33.newFromGeneralSlice ⟨1, 2, 1⟩ ⟨0, 3, 1⟩)._md._shape
      = (view33.newFromSlice (SliceDesc.general ⟨1, 2, 1⟩) (SliceDesc.general ⟨0, 3, 1⟩))._md._shape ∧
    (view33.newFromGeneralSlice ⟨1, 2, 1⟩ ⟨0, 3, 1⟩).getIndex 0 2
      = (view33.newFromSlice (SliceDesc.general ⟨1, 2, 1⟩) (SliceDesc.general ⟨0, 3, 1⟩)).getIndex
          0 2 ∧
    (view33.newFromGeneralSlice ⟨1, 2, 1⟩ ⟨0, 3, 1⟩).getIndex 0 2 = 5 :=
  ⟨by decide, by decide, by decide, by decide,
   (newFromGeneralSlice_refines view33 ⟨1, 2, 1⟩ ⟨0, 3, 1⟩ (by decide) (by decide) (by decide)
      (by decide)).1,
   (newFromGeneralSlice_refines view33 ⟨1, 2, 1⟩ ⟨0, 3, 1⟩ (by decide) (by decide) (by decide)
      (by decide)).2.2 0 2 (by decide) (by decide) (by decide) (by decide),
   by decide⟩

/-- Folding a range with a step that adds `G i` to a present accumulator gives
the seed plus the sum of `G`. -/
theorem foldl_range_sum (n : Nat) (F : Option Int → Nat → Option Int) (G : Nat → Int)
    (hF : ∀ i : Nat, i < n → ∀ a : Int, F (some a) i = some (a + G i)) (a : Int) :
    (List.range n).foldl F (some a) = some (a + ∑ i ∈ Finset.range n, G i) := by
  induction n with
  | zero => simp
  | succ m ih =>
    rw [List.range_succ, List.foldl_append, ih (fun i hi => hF i (Nat.lt_succ_of_lt hi))]
    simp only [List.foldl_cons, List.foldl_nil]
    rw [hF m (Nat.lt_succ_self m), Finset.sum_range_succ, add_assoc]

/-- A read through a view only depends on the view's own buffer. -/
theorem ExpressionArray.get_congr {V : Type} (v : ExpressionArray) (h1 h2 : Store V)
    (he : h1 v.data_ptr = h2 v.data_ptr) (i j : Int) : v.get h1 i j = v.get h2 i j := by
  simp only [ExpressionArray.get, he]

/-- A reduction only depends on the source's own buffer. -/
theorem reduction_op_congr {V : Type} (op : ROp V) (is_simple : Bool) (src : ExpressionArray)
    (h1 h2 : Store V) (he : h1 src.data_ptr = h2 src.data_ptr) (s0 s1 : SliceDesc) :
    reduction_op op is_simple h1 src s0 s1 = reduction_op op is_simple h2 src s0 s1 := by
  have hg : ∀ i j : Int, src.get h1 i j = src.get h2 i j :=
    fun i j => ExpressionArray.get_congr src h1 h2 he i j
  unfold reduction_op
  simp only [hg]

/-- The sum reduction over two slice descriptors whose selected cells are all
readable is the double sum of the cells. -/
theorem reduction_op_sum (is_simple : Bool) (h : Store Int) (src : ExpressionArray)
    (s0 s1 : SliceDesc) (g : Nat → Nat → Int)
    (hg : ∀ i : Nat, i < s0.size.toNat → ∀ j : Nat, j < s1.size.toNat →
      src.get h (s0.start + (i : Int) * s0.step) (s1.start + (j : Int) * s1.step)
        = some (g i j)) :
    reduction_op ROp.sum is_simple h src s0 s1
      = some (∑ i ∈ Finset.range s0.size.toNat, ∑ j ∈ Finset.range s1.size.toNat, g i j) := by
  unfold reduction_op
  rw [foldl_range_sum s0.size.toNat _
    (fun i => ∑ j ∈ Finset.range s1.size.toNat, g i j) _ ROp.sum.seed]
  · simp [ROp.sum]
  · intro i hi a
    apply foldl_range_sum
    intro j hj b
    rw [hg i hi j hj]
    rfl

/-- A read at a cell whose linear index is `k`, inside the buffer. -/
theorem ExpressionArray.get_of_index {V : Type} (v : ExpressionArray) (h : Store V)
    (i j : Int) (k : Nat) (hk : v.getIndex i j = (k : Int)) (hlt : k < (h v.data_ptr).length) :
    v.get h i j = (h v.data_ptr)[k]? := by
  simp only [ExpressionArray.get, hk, Int.toNat_ofNat]
  rw [if_pos]
  exact ⟨Int.ofNat_nonneg k, by exact_mod_cast hlt⟩

/-- A write at a cell whose linear index is `k`, inside the buffer. -/
theorem ExpressionArray.set_of_index {V : Type} (v : ExpressionArray) (h : Store V)
    (i j : Int) (k : Nat) (x : V) (hk : v.getIndex i j = (k : Int))
    (hlt : k < (h v.data_ptr).length) :
    v.set h i j x
      = some (fun p => if p = v.data_ptr then (h p).set k x else h p) := by
  simp only [ExpressionArray.set, hk, Int.toNat_ofNat]
  rw [if_pos]
  exact ⟨Int.ofNat_nonneg k, by exact_mod_cast hlt⟩

/-- A loop that stores the `k`-th computed value at linear index `k` of a
destination of `n` cells fills cells `0 .. m-1` and leaves every other buffer
as it was. -/
theorem foldl_fill {V : Type} (dest : ExpressionArray) (n : Nat) (ci cj : Int → Int)
    (compute : Store V → Int → Option V) (val : Nat → V) (h0 : Store V)
    (hidx : ∀ k : Nat, k < n → dest.getIndex (ci k) (cj k) = (k : Int))
    (hlen : (h0 dest.data_ptr).length = n)
    (hval : ∀ hs : Store V, (∀ p, p ≠ dest.data_ptr → hs p = h0 p) →
      ∀ k : Nat, k < n → compute hs k = some (val k))
    (m : Nat) (hm : m ≤ n) :
    ∃ h1 : Store V,
      (List.range m).foldl
          (fun acc (i : Nat) => acc.bind (fun hs =>
            (compute hs (i : Int)).bind (fun x => dest.set hs (ci i) (cj i) x)))
          (some h0) = some h1 ∧
      (∀ p, p ≠ dest.data_ptr → h1 p = h0 p) ∧
      (h1 dest.data_ptr).length = n ∧
      ∀ k : Nat, k < m → (h1 dest.data_ptr)[k]? = some (val k) := by
  induction m with
  | zero => exact ⟨h0, rfl, fun _ _ => rfl, hlen, fun k hk => absurd hk (Nat.not_lt_zero k)⟩
  | succ m ih =>
    obtain ⟨h1, hrun, hother, hl, hcells⟩ := ih (Nat.le_of_succ_le hm)
    have hmn : m < n := hm
    refine ⟨fun p => if p = dest.data_ptr then (h1 p).set m (val m) else h1 p, ?_, ?_, ?_, ?_⟩
    · rw [List.range_succ, List.foldl_append, hrun]
      simp only [List.foldl_cons, List.foldl_nil, Option.some_bind]
      rw [hval h1 hother m hmn]
      simp only [Option.some_bind]
      exact ExpressionArray.set_of_index dest h1 (ci m) (cj m) m (val m) (hidx m hmn)
        (by rw [hl]; exact hmn)
    · intro p hp
      simp only [if_neg hp]
      exact hother p hp
    · simp only [if_true, List.length_set]
      exact hl
    · intro k hk
      simp only [if_true]
      by_cases hkm : k = m
      · subst hkm
        rw [List.getElem?_set_self (by rw [hl]; exact hmn)]
      · rw [List.getElem?_set_ne (Ne.symm hkm)]
        exact hcells k (by omega)

/-- A store that agrees with a fresh allocation off the fresh handle agrees with
the original store on every other buffer. -/
theorem agree_allocBuffer {V : Type} (h hs : Store V) (fresh : Nat) (n : Int) (init : V)
    (p : Nat) (hp : fresh ≠ p)
    (hagree : ∀ q, q ≠ fresh → hs q = allocBuffer h fresh n init q) : hs p = h p := by
  rw [hagree p (Ne.symm hp)]
  simp only [allocBuffer, if_neg (Ne.symm hp)]

/-- Sum reduction along axis 0: the destination has shape `(1, c)` and cell
`(0, j)` holds the sum of column `j`. -/
theorem newFromReduction_sum_axis0 (h : Store Int) (fresh : Nat) (init : Int)
    (is_simple : Bool) (v : ExpressionArray) (r c : Nat) (a : Nat → Nat → Int)
    (hshape : v._md._shape = ((r : Int), (c : Int))) (hfresh : fresh ≠ v.data_ptr)
    (hread : ∀ i : Nat, i < r → ∀ j : Nat, j < c → v.get h i j = some (a i j)) :
    ∃ h1 : Store Int,
      (v.newFromReduction ROp.sum is_simple h fresh init 0).2 = some h1 ∧
      (v.newFromReduction ROp.sum is_simple h fresh init 0).1._md._shape = (1, (c : Int)) ∧
      ∀ j : Nat, j < c →
        (v.newFromReduction ROp.sum is_simple h fresh init 0).1.get h1 0 j
          = some (∑ i ∈ Finset.range r, a i j) := by
  have hs0 : v.shape 0 = (r : Int) := by
    simp only [ExpressionArray.shape, MetaData.shape_zero, hshape]
  have hs1 : v.shape 1 = (c : Int) := by
    simp only [ExpressionArray.shape, MetaData.shape_one, hshape]
  have hidx : ∀ k : Nat, k < c →
      (ExpressionArray.ofEnv fresh (MetaData.ofShape v.md.mode 1 (v.shape 1))).getIndex
        ((fun _ => (0 : Int)) (k : Int)) ((fun x : Int => x) (k : Int)) = (k : Int) := by
    intro k hk
    show Pycpx.getIndex (MetaData.ofShape v.md.mode 1 (v.shape 1)) 0 (k : Int) = (k : Int)
    rw [hs1, getIndex_ofShape v.md.mode 1 c 0 k (le_refl 1) (by omega) (le_refl 0)
      (by omega) (by omega) (by omega)]
    simp
  have hlen : (allocBuffer h fresh (1 * v.shape 1) init
      (ExpressionArray.ofEnv fresh (MetaData.ofShape v.md.mode 1 (v.shape 1))).data_ptr).length
        = c := by
    simp [allocBuffer, ExpressionArray.ofEnv, hs1]
  have hval : ∀ hs : Store Int,
      (∀ p, p ≠ (ExpressionArray.ofEnv fresh (MetaData.ofShape v.md.mode 1 (v.shape 1))).data_ptr →
        hs p = allocBuffer h fresh (1 * v.shape 1) init p) →
      ∀ k : Nat, k < c →
        (fun (hs : Store Int) (i : Int) =>
          reduction_op ROp.sum is_simple hs v (SliceDesc.full ⟨v.shape 0⟩)
            (SliceDesc.single ⟨i⟩)) hs (k : Int)
          = some ((fun j => ∑ i ∈ Finset.range r, a i j) k) := by
    intro hs hagree k hk
    have he : hs v.data_ptr = h v.data_ptr :=
      agree_allocBuffer h hs fresh _ init v.data_ptr hfresh hagree
    show reduction_op ROp.sum is_simple hs v (SliceDesc.full ⟨v.shape 0⟩)
        (SliceDesc.single ⟨(k : Int)⟩) = some (∑ i ∈ Finset.range r, a i k)
    rw [reduction_op_congr ROp.sum is_simple v hs h he,
      reduction_op_sum is_simple h v _ _ (fun i _ => a i k)]
    · simp [SliceDesc.size, SliceFull.size, SliceSingle.size, hs0]
    · intro i hi j hj
      have hi' : i < r := by
        simpa [SliceDesc.size, SliceFull.size, hs0] using hi
      have hj' : j = 0 := by
        simpa [SliceDesc.size, SliceSingle.size] using hj
      subst hj'
      simpa [SliceDesc.start, SliceDesc.step, SliceFull.start, SliceFull.step,
        SliceSingle.start, SliceSingle.step] using hread i hi' k hk
  obtain ⟨h1, hrun, _, hl, hcells⟩ :=
    foldl_fill (ExpressionArray.ofEnv fresh (MetaData.ofShape v.md.mode 1 (v.shape 1))) c
      (fun _ => 0) (fun x => x)
      (fun hs i => reduction_op ROp.sum is_simple hs v (SliceDesc.full ⟨v.shape 0⟩)
        (SliceDesc.single ⟨i⟩))
      (fun j => ∑ i ∈ Finset.range r, a i j)
      (allocBuffer h fresh (1 * v.shape 1) init) hidx hlen hval c (le_refl c)
  have hc : (v.shape 1).toNat = c := by rw [hs1]; exact Int.toNat_ofNat c
  refine ⟨h1, ?_, ?_, ?_⟩
  · have e : (v.newFromReduction ROp.sum is_simple h fresh init 0).2
        = forLoop (v.shape 1)
            (fun i hs =>
              (reduction_op ROp.sum is_simple hs v (SliceDesc.full ⟨v.shape 0⟩)
                (SliceDesc.single ⟨i⟩)).bind
                (fun x =>
                  (ExpressionArray.ofEnv fresh
                    (MetaData.ofShape v.md.mode 1 (v.shape 1))).set hs 0 i x))
            (allocBuffer h fresh (1 * v.shape 1) init) := rfl
    rw [e]
    unfold forLoop
    rw [hc]
    exact hrun
  · show ((1 : Int), v.shape 1) = (1, (c : Int))
    rw [hs1]
  · intro j hj
    show (ExpressionArray.ofEnv fresh (MetaData.ofShape v.md.mode 1 (v.shape 1))).get h1 0 j
      = some (∑ i ∈ Finset.range r, a i j)
    rw [ExpressionArray.get_of_index _ h1 0 j j (hidx j hj) (by rw [hl]; exact hj)]
    exact hcells j hj

/-- Sum reduction along axis 1: the destination has shape `(r, 1)` and cell
`(i, 0)` holds the sum of row `i`. -/
theorem newFromReduction_sum_axis1 (h : Store Int) (fresh : Nat) (init : Int)
    (is_simple : Bool) (v : ExpressionArray) (r c : Nat) (a : Nat → Nat → Int)
    (hshape : v._md._shape = ((r : Int), (c : Int))) (hfresh : fresh ≠ v.data_ptr)
    (hread : ∀ i : Nat, i < r → ∀ j : Nat, j < c → v.get h i j = some (a i j)) :
    ∃ h1 : Store Int,
      (v.newFromReduction ROp.sum is_simple h fresh init 1).2 = some h1 ∧
      (v.newFromReduction ROp.sum is_simple h fresh init 1).1._md._shape = ((r : Int), 1) ∧
      ∀ i : Nat, i < r →
        (v.newFromReduction ROp.sum is_simple h fresh init 1).1.get h1 i 0
          = some (∑ j ∈ Finset.range c, a i j) := by
  have hs0 : v.shape 0 = (r : Int) := by
    simp only [ExpressionArray.shape, MetaData.shape_zero, hshape]
  have hs1 : v.shape 1 = (c : Int) := by
    simp only [ExpressionArray.shape, MetaData.shape_one, hshape]
  have hidx : ∀ k : Nat, k < r →
      (ExpressionArray.ofEnv fresh (MetaData.ofShape v.md.mode (v.shape 0) 1)).getIndex
        ((fun x : Int => x) (k : Int)) ((fun _ => (0 : Int)) (k : Int)) = (k : Int) := by
    intro k hk
    show Pycpx.getIndex (MetaData.ofShape v.md.mode (v.shape 0) 1) (k : Int) 0 = (k : Int)
    rw [hs0, getIndex_ofShape v.md.mode r 1 k 0 (by omega) (le_refl 1) (by omega)
      (by omega) (le_refl 0) (by omega)]
    simp
  have hlen : (allocBuffer h fresh (v.shape 0 * 1) init
      (ExpressionArray.ofEnv fresh (MetaData.ofShape v.md.mode (v.shape 0) 1)).data_ptr).length
        = r := by
    simp [allocBuffer, ExpressionArray.ofEnv, hs0]
  have hval : ∀ hs : Store Int,
      (∀ p, p ≠ (ExpressionArray.ofEnv fresh (MetaData.ofShape v.md.mode (v.shape 0) 1)).data_ptr →
        hs p = allocBuffer h fresh (v.shape 0 * 1) init p) →
      ∀ k : Nat, k < r →
        (fun (hs : Store Int) (i : Int) =>
          reduction_op ROp.sum is_simple hs v (SliceDesc.single ⟨i⟩)
            (SliceDesc.full ⟨v.shape 1⟩)) hs (k : Int)
          = some ((fun i => ∑ j ∈ Finset.range c, a i j) k) := by
    intro hs hagree k hk
    have he : hs v.data_ptr = h v.data_ptr :=
      agree_allocBuffer h hs fresh _ init v.data_ptr hfresh hagree
    show reduction_op ROp.sum is_simple hs v (SliceDesc.single ⟨(k : Int)⟩)
        (SliceDesc.full ⟨v.shape 1⟩) = some (∑ j ∈ Finset.range c, a k j)
    rw [reduction_op_congr ROp.sum is_simple v hs h he,
      reduction_op_sum is_simple h v _ _ (fun _ j => a k j)]
    · simp [SliceDesc.size, SliceFull.size, SliceSingle.size, hs1]
    · intro i hi j hj
      have hi' : i = 0 := by
        simpa [SliceDesc.size, SliceSingle.size] using hi
      have hj' : j < c := by
        simpa [SliceDesc.size, SliceFull.size, hs1] using hj
      subst hi'
      simpa [SliceDesc.start, SliceDesc.step, SliceFull.start, SliceFull.step,
        SliceSingle.start, SliceSingle.step] using hread k hk j hj'
  obtain ⟨h1, hrun, _, hl, hcells⟩ :=
    foldl_fill (ExpressionArray.ofEnv fresh (MetaData.ofShape v.md.mode (v.shape 0) 1)) r
      (fun x => x) (fun _ => 0)
      (fun hs i => reduction_op ROp.sum is_simple hs v (SliceDesc.single ⟨i⟩)
        (SliceDesc.full ⟨v.shape 1⟩))
      (fun i => ∑ j ∈ Finset.range c, a i j)
      (allocBuffer h fresh (v.shape 0 * 1) init) hidx hlen hval r (le_refl r)
  have hr : (v.shape 0).toNat = r := by rw [hs0]; exact Int.toNat_ofNat r
  refine ⟨h1, ?_, ?_, ?_⟩
  · have e : (v.newFromReduction ROp.sum is_simple h fresh init 1).2
        = forLoop (v.shape 0)
            (fun i hs =>
              (reduction_op ROp.sum is_simple hs v (SliceDesc.single ⟨i⟩)
                (SliceDesc.full ⟨v.shape 1⟩)).bind
                (fun x =>
                  (ExpressionArray.ofEnv fresh
                    (MetaData.ofShape v.md.mode (v.shape 0) 1)).set hs i 0 x))
            (allocBuffer h fresh (v.shape 0 * 1) init) := rfl
    rw [e]
    unfold forLoop
    rw [hr]
    exact hrun
  · show (v.shape 0, (1 : Int)) = ((r : Int), 1)
    rw [hs0]
  · intro i hi
    show (ExpressionArray.ofEnv fresh (MetaData.ofShape v.md.mode (v.shape 0) 1)).get h1 i 0
      = some (∑ j ∈ Finset.range c, a i j)
    rw [ExpressionArray.get_of_index _ h1 i 0 i (hidx i hi) (by rw [hl]; exact hi)]
    exact hcells i hi

/-- Sum reduction over both axes: the destination has shape `(1, 1)` and its
cell holds the sum of all elements. -/
theorem newFromReduction_sum_both (h : Store Int) (fresh : Nat) (init : Int)
    (is_simple : Bool) (v : ExpressionArray) (r c : Nat) (a : Nat → Nat → Int) (axis : Int)
    (hshape : v._md._shape = ((r : Int), (c : Int))) (hfresh : fresh ≠ v.data_ptr)
    (hread : ∀ i : Nat, i < r → ∀ j : Nat, j < c → v.get h i j = some (a i j))
    (hx0 : axis ≠ 0) (hx1 : axis ≠ 1) :
    ∃ h1 : Store Int,
      (v.newFromReduction ROp.sum is_simple h fresh init axis).2 = some h1 ∧
      (v.newFromReduction ROp.sum is_simple h fresh init axis).1._md._shape = (1, 1) ∧
      (v.newFromReduction ROp.sum is_simple h fresh init axis).1.get h1 0 0
        = some (∑ i ∈ Finset.range r, ∑ j ∈ Finset.range c, a i j) := by
  have hs0 : v.shape 0 = (r : Int) := by
    simp only [ExpressionArray.shape, MetaData.shape_zero, hshape]
  have hs1 : v.shape 1 = (c : Int) := by
    simp only [ExpressionArray.shape, MetaData.shape_one, hshape]
  have hdest : (v.newFromReduction ROp.sum is_simple h fresh init axis).1
      = ExpressionArray.ofEnv fresh (MetaData.ofShape v.md.mode 1 1) := by
    simp only [ExpressionArray.newFromReduction, if_neg hx0, if_neg hx1]
  have hrun : (v.newFromReduction ROp.sum is_simple h fresh init axis).2
      = (reduction_op ROp.sum is_simple (allocBuffer h fresh (1 * 1) init) v
          (SliceDesc.full ⟨v.shape 0⟩) (SliceDesc.full ⟨v.shape 1⟩)).bind
          (fun x => (ExpressionArray.ofEnv fresh (MetaData.ofShape v.md.mode 1 1)).set
            (allocBuffer h fresh (1 * 1) init) 0 0 x) := by
    simp only [ExpressionArray.newFromReduction, if_neg hx0, if_neg hx1]
    rfl
  have he : allocBuffer h fresh (1 * 1) init v.data_ptr = h v.data_ptr := by
    simp only [allocBuffer, if_neg (Ne.symm hfresh)]
  have hsum : reduction_op ROp.sum is_simple (allocBuffer h fresh (1 * 1) init) v
      (SliceDesc.full ⟨v.shape 0⟩) (SliceDesc.full ⟨v.shape 1⟩)
        = some (∑ i ∈ Finset.range r, ∑ j ∈ Finset.range c, a i j) := by
    rw [reduction_op_congr ROp.sum is_simple v _ h he,
      reduction_op_sum is_simple h v _ _ a]
    · simp [SliceDesc.size, SliceFull.size, hs0, hs1]
    · intro i hi j hj
      have hi' : i < r := by
        simpa [SliceDesc.size, SliceFull.size, hs0] using hi
      have hj' : j < c := by
        simpa [SliceDesc.size, SliceFull.size, hs1] using hj
      simpa [SliceDesc.start, SliceDesc.step, SliceFull.start, SliceFull.step]
        using hread i hi' j hj'
  have hidx : (ExpressionArray.ofEnv fresh (MetaData.ofShape v.md.mode 1 1)).getIndex 0 0
      = ((0 : Nat) : Int) := by
    show Pycpx.getIndex (MetaData.ofShape v.md.mode 1 1) 0 0 = ((0 : Nat) : Int)
    rw [getIndex_ofShape v.md.mode 1 1 0 0 (le_refl 1) (le_refl 1) (le_refl 0) (by omega)
      (le_refl 0) (by omega)]
    simp
  have hlen : (allocBuffer h fresh (1 * 1) init
      (ExpressionArray.ofEnv fresh (MetaData.ofShape v.md.mode 1 1)).data_ptr).length = 1 := by
    simp [allocBuffer, ExpressionArray.ofEnv]
  rw [hdest, hrun, hsum]
  simp only [Option.some_bind]
  rw [ExpressionArray.set_of_index _ _ 0 0 0 _ hidx (by rw [hlen]; exact Nat.zero_lt_one)]
  refine ⟨_, rfl, rfl, ?_⟩
  rw [ExpressionArray.get_of_index _ _ 0 0 0 hidx
    (by simp only [if_true, List.length_set]; rw [hlen]; exact Nat.zero_lt_one)]
  simp only [if_true]
  rw [List.getElem?_set_self (by rw [hlen]; exact Nat.zero_lt_one)]

/-- C13. With `reduction_op` storing the ascending fold of the reduction
operator over the selected elements, for an `r x c` view whose cells are all
readable and a freshly allocated destination: sum reduction along axis 0 gives
a `(1, c)` destination whose cell `(0, j)` is the sum of column `j`, along axis
1 an `(r, 1)` destination whose cell `(i, 0)` is the sum of row `i`, and for
any other axis value a `(1, 1)` destination holding the sum of all elements. -/
theorem newFromReduction_sum (h : Store Int) (fresh : Nat) (init : Int) (is_simple : Bool)
    (v : ExpressionArray) (r c : Nat) (a : Nat → Nat → Int)
    (hshape : v._md._shape = ((r : Int), (c : Int))) (hfresh : fresh ≠ v.data_ptr)
    (hread : ∀ i : Nat, i < r → ∀ j : Nat, j < c → v.get h i j = some (a i j)) :
    (∃ h1 : Store Int,
      (v.newFromReduction ROp.sum is_simple h fresh init 0).2 = some h1 ∧
      (v.newFromReduction ROp.sum is_simple h fresh init 0).1._md._shape = (1, (c : Int)) ∧
      ∀ j : Nat, j < c →
        (v.newFromReduction ROp.sum is_simple h fresh init 0).1.get h1 0 j
          = some (∑ i ∈ Finset.range r, a i j)) ∧
    (∃ h1 : Store Int,
      (v.newFromReduction ROp.sum is_simple h fresh init 1).2 = some h1 ∧
      (v.newFromReduction ROp.sum is_simple h fresh init 1).1._md._shape = ((r : Int), 1) ∧
      ∀ i : Nat, i < r →
        (v.newFromReduction ROp.sum is_simple h fresh init 1).1.get h1 i 0
          = some (∑ j ∈ Finset.range c, a i j)) ∧
    (∀ axis : Int, axis ≠ 0 → axis ≠ 1 →
      ∃ h1 : Store Int,
        (v.newFromReduction ROp.sum is_simple h fresh init axis).2 = some h1 ∧
        (v.newFromReduction ROp.sum is_simple h fresh init axis).1._md._shape = (1, 1) ∧
        (v.newFromReduction ROp.sum is_simple h fresh init axis).1.get h1 0 0
          = some (∑ i ∈ Finset.range r, ∑ j ∈ Finset.range c, a i j)) :=
  ⟨newFromReduction_sum_axis0 h fresh init is_simple v r c a hshape hfresh hread,
   newFromReduction_sum_axis1 h fresh init is_simple v r c a hshape hfresh hread,
   fun axis hx0 hx1 =>
     newFromReduction_sum_both h fresh init is_simple v r c a axis hshape hfresh hread hx0 hx1⟩

/-- Witness for C13: the 3 x 3 view over nine ones.  Along axis 0 the
destination is `(1,3)` holding 3, 3, 3; along axis 1 it is `(3,1)` holding
3, 3, 3; over both axes it is `(1,1)` holding 9. -/
theorem newFromReduction_sum_witness :
    view33._md._shape = (((3 : Nat) : Int), ((3 : Nat) : Int)) ∧
    7 ≠ view33.data_ptr ∧
    (∀ i : Nat, i < 3 → ∀ j : Nat, j < 3 → view33.get ones9 i j = some 1) ∧
    (∃ h1 : Store Int,
      (view33.newFromReduction ROp.sum false ones9 7 0 0).2 = some h1 ∧
      (view33.newFromReduction ROp.sum false ones9 7 0 0).1._md._shape
        = (1, ((3 : Nat) : Int)) ∧
      ∀ j : Nat, j < 3 →
        (view33.newFromReduction ROp.sum false ones9 7 0 0).1.get h1 0 j
          = some (∑ _i ∈ Finset.range 3, (1 : Int))) ∧
    (∃ h1 : Store Int,
      (view33.newFromReduction ROp.sum false ones9 7 0 1).2 = some h1 ∧
      (view33.newFromReduction ROp.sum false ones9 7 0 1).1._md._shape
        = (((3 : Nat) : Int), 1) ∧
      ∀ i : Nat, i < 3 →
        (view33.newFromReduction ROp.sum false ones9 7 0 1).1.get h1 i 0
          = some (∑ _j ∈ Finset.range 3, (1 : Int))) ∧
    (∃ h1 : Store Int,
      (view33.newFromReduction ROp.sum false ones9 7 0 2).2 = some h1 ∧
      (view33.newFromReduction ROp.sum false ones9 7 0 2).1._md._shape = (1, 1) ∧
      (view33.newFromReduction ROp.sum false ones9 7 0 2).1.get h1 0 0
        = some (∑ _i ∈ Finset.range 3, ∑ _j ∈ Finset.range 3, (1 : Int))) ∧
    (∑ _i ∈ Finset.range 3, (1 : Int)) = 3 ∧
    (∑ _i ∈ Finset.range 3, ∑ _j ∈ Finset.range 3, (1 : Int)) = 9 ∧
    ((view33.newFromReduction ROp.sum false ones9 7 0 0).2.map (fun h => h 7))
      = some [3, 3, 3] ∧
    ((view33.newFromReduction ROp.sum false ones9 7 0 1).2.map (fun h => h 7))
      = some [3, 3, 3] ∧
    ((view33.newFromReduction ROp.sum false ones9 7 0 2).2.map (fun h => h 7)) = some [9] :=
  ⟨by decide, by decide, by decide,
   (newFromReduction_sum ones9 7 0 false view33 3 3 (fun _ _ => 1) (by decide) (by decide)
      (by decide)).1,
   (newFromReduction_sum ones9 7 0 false view33 3 3 (fun _ _ => 1) (by decide) (by decide)
      (by decide)).2.1,
   (newFromReduction_sum ones9 7 0 false view33 3 3 (fun _ _ => 1) (by decide) (by decide)
      (by decide)).2.2 2 (by decide) (by decide),
   by decide, by decide, by decide, by decide, by decide⟩

end Pycpx
